import Mathlib

/-!
Shallow embedding of the moments-slackbot repository (TypeScript) in Lean 4.

The embedding covers:
- src/slack-emoji.ts : the shortcode-to-emoji substitution (convertSlackEmoji),
  modelling the JavaScript regex replace with the pattern
  colon, one or more of [a-z0-9_+-], colon, scanned left to right without overlap;
- src/github.ts : the content-store client (addMoment, updateMomentFile,
  uploadImage, getRecentMoments, getTodayEntries) over an explicit store state
  with optimistic-concurrency sha tokens;
- src/images.ts : the image pipeline (extractImageFiles, processMessageImages);
- src/bot.ts : the conversation orchestrator: the app.message router, the flow
  handlers (handleNewMoment, processAsMoment, handleInstruction, handleFollowUp,
  handleCraft, handleShowToday) and the button action handlers.

Asynchronous collaborators (the language model gateway, image downloads from
the chat transport, upload success) are modelled as oracles carried in an Env
record; each handler invocation consumes the oracle outcomes for that one run.
Network writes and replies are recorded in an explicit output trace, and the
remote repository is an explicit Store value threaded through the handlers.

JavaScript string primitives used by the source (trim, trimEnd, toLowerCase,
split/join) are re-implemented over character lists so that all definitions
evaluate inside the kernel; the whitespace class is the ASCII subset of the
JavaScript one, which is the only part exercised by the program.
-/

namespace Moments

/-- JavaScript whitespace test (ASCII subset of the \s class). -/
def jsWs (c : Char) : Bool :=
  c = ' ' || c = '\t' || c = '\n' || c = '\r' || c = '\x0b' || c = '\x0c'

/-- Drop leading whitespace from a character list. -/
def trimLeftChars (l : List Char) : List Char := l.dropWhile jsWs

/-- Drop trailing whitespace from a character list. -/
def trimRightChars (l : List Char) : List Char := (l.reverse.dropWhile jsWs).reverse

/-- Model of the JavaScript String.prototype.trim. -/
def jsTrim (s : String) : String := ⟨trimRightChars (trimLeftChars s.data)⟩

/-- Model of the JavaScript String.prototype.trimEnd. -/
def jsTrimEnd (s : String) : String := ⟨trimRightChars s.data⟩

/-- ASCII lowercasing of one character. -/
def lowerChar (c : Char) : Char :=
  if 'A' ≤ c && c ≤ 'Z' then Char.ofNat (c.toNat + 32) else c

/-- Model of the JavaScript String.prototype.toLowerCase (ASCII range). -/
def jsToLower (s : String) : String := ⟨s.data.map lowerChar⟩

/-- Interleave a separator between character lists (JavaScript Array.join). -/
def interChars (sep : List Char) : List (List Char) → List Char
  | [] => []
  | [x] => x
  | x :: y :: rest => x ++ sep ++ interChars sep (y :: rest)

/-- Model of JavaScript array join on strings. -/
def joinSep (sep : String) (xs : List String) : String :=
  ⟨interChars sep.data (xs.map String.data)⟩

/-- Split a character list at every newline (JavaScript split("\n")). -/
def splitNl : List Char → List (List Char)
  | [] => [[]]
  | c :: rest =>
    if c = '\n' then [] :: splitNl rest
    else
      match splitNl rest with
      | h :: t => (c :: h) :: t
      | [] => [[c]]

/-- Model of text.split("\n").join(sep), used for blockquote formatting. -/
def splitNlJoin (sep : String) (s : String) : String :=
  ⟨interChars sep.data (splitNl s.data)⟩

/-- Association map keyed by strings; models the in-memory JavaScript Map
objects holding per-user ephemeral state, and the remote file trees. -/
abbrev AMap (V : Type) := List (String × V)

/-- Map lookup (Map.get). -/
def AMap.get {V : Type} : AMap V → String → Option V
  | [], _ => none
  | (k, v) :: rest, key => if k = key then some v else AMap.get rest key

/-- Map update (Map.set): replaces the binding if present, appends otherwise. -/
def AMap.set {V : Type} : AMap V → String → V → AMap V
  | [], key, v => [(key, v)]
  | (k, w) :: rest, key, v =>
    if k = key then (key, v) :: rest else (k, w) :: AMap.set rest key v

/-- Map removal (Map.delete). -/
def AMap.del {V : Type} (m : AMap V) (key : String) : AMap V :=
  m.filter (fun p => !(p.1 = key : Bool))

/-!
Part: slack-emoji.ts

convertSlackEmoji replaces every occurrence of the regex
colon ([a-z0-9_+-]+) colon with the mapped emoji, leaving unknown shortcodes
untouched. Because the colon is not a member of the bracket class, the
JavaScript regex scan is equivalent to the deterministic left-to-right scanner
convChars below: at each colon, take the maximal run of class characters and
require a closing colon.
-/

/-- Character class [a-z0-9_+-] of the shortcode regex. -/
def isCodeChar (c : Char) : Bool :=
  ('a' ≤ c && c ≤ 'z') || ('0' ≤ c && c ≤ '9') || c = '_' || c = '+' || c = '-'

/-- Curated shortcode table from src/slack-emoji.ts, in source order. -/
def emojiMap : List (String × String) := [
  ("smile", "😄"), ("laughing", "😆"), ("blush", "😊"), ("smiley", "😃"), ("relaxed", "☺️"),
  ("heart_eyes", "😍"), ("kissing_heart", "😘"), ("kissing", "😗"), ("wink", "😉"),
  ("thinking_face", "🤔"), ("thinking", "🤔"), ("neutral_face", "😐"), ("expressionless", "😑"),
  ("unamused", "😒"), ("sweat", "😓"), ("pensive", "😔"), ("confused", "😕"),
  ("upside_down_face", "🙃"), ("money_mouth_face", "🤑"), ("astonished", "😲"),
  ("frowning", "😦"), ("anguished", "😧"), ("cry", "😢"), ("sob", "😭"),
  ("joy", "😂"), ("rofl", "🤣"), ("slightly_smiling_face", "🙂"),
  ("sunglasses", "😎"), ("nerd_face", "🤓"), ("monocle_face", "🧐"),
  ("confused_face", "😕"), ("worried", "😟"), ("slightly_frowning_face", "🙁"),
  ("open_mouth", "😮"), ("hushed", "😯"), ("sleepy", "😪"), ("tired_face", "😫"),
  ("sleeping", "😴"), ("relieved", "😌"), ("stuck_out_tongue", "😛"),
  ("stuck_out_tongue_winking_eye", "😜"), ("stuck_out_tongue_closed_eyes", "😝"),
  ("drooling_face", "🤤"), ("grimacing", "😬"), ("zipper_mouth_face", "🤐"),
  ("nauseated_face", "🤢"), ("sneezing_face", "🤧"), ("mask", "😷"),
  ("face_with_thermometer", "🤒"), ("face_with_head_bandage", "🤕"),
  ("smiling_imp", "😈"), ("skull", "💀"), ("ghost", "👻"), ("alien", "👽"),
  ("robot_face", "🤖"), ("poop", "💩"), ("clown_face", "🤡"),
  ("fire", "🔥"), ("100", "💯"), ("sparkles", "✨"), ("star", "⭐"), ("star2", "🌟"),
  ("zap", "⚡"), ("boom", "💥"), ("collision", "💥"),
  ("muscle", "💪"), ("wave", "👋"), ("clap", "👏"), ("thumbsup", "👍"), ("+1", "👍"),
  ("thumbsdown", "👎"), ("-1", "👎"), ("ok_hand", "👌"), ("punch", "👊"),
  ("fist", "✊"), ("raised_hands", "🙌"), ("pray", "🙏"), ("point_up", "☝️"),
  ("point_up_2", "👆"), ("point_down", "👇"), ("point_left", "👈"), ("point_right", "👉"),
  ("middle_finger", "🖕"), ("hand", "✋"), ("raised_hand", "✋"),
  ("v", "✌️"), ("metal", "🤘"), ("crossed_fingers", "🤞"),
  ("writing_hand", "✍️"), ("eyes", "👀"), ("eye", "👁️"), ("brain", "🧠"),
  ("heart", "❤️"), ("orange_heart", "🧡"), ("yellow_heart", "💛"),
  ("green_heart", "💚"), ("blue_heart", "💙"), ("purple_heart", "💜"),
  ("black_heart", "🖤"), ("broken_heart", "💔"), ("heavy_heart_exclamation", "❣️"),
  ("two_hearts", "💕"), ("revolving_hearts", "💞"), ("heartbeat", "💓"),
  ("sparkling_heart", "💖"), ("heartpulse", "💗"), ("cupid", "💘"),
  ("rocket", "🚀"), ("airplane", "✈️"), ("tada", "🎉"), ("party_popper", "🎉"),
  ("confetti_ball", "🎊"), ("balloon", "🎈"), ("gift", "🎁"), ("trophy", "🏆"),
  ("medal", "🏅"), ("crown", "👑"), ("gem", "💎"), ("bulb", "💡"),
  ("flashlight", "🔦"), ("wrench", "🔧"), ("hammer", "🔨"), ("nut_and_bolt", "🔩"),
  ("gear", "⚙️"), ("link", "🔗"), ("chains", "⛓️"), ("lock", "🔒"), ("unlock", "🔓"),
  ("key", "🔑"), ("bomb", "💣"), ("knife", "🔪"), ("pill", "💊"),
  ("warning", "⚠️"), ("no_entry", "⛔"), ("x", "❌"), ("white_check_mark", "✅"),
  ("heavy_check_mark", "✔️"), ("question", "❓"), ("exclamation", "❗"),
  ("mega", "📣"), ("loudspeaker", "📢"), ("bell", "🔔"), ("no_bell", "🔕"),
  ("bookmark", "🔖"), ("books", "📚"), ("book", "📖"), ("pencil", "📝"),
  ("pencil2", "✏️"), ("memo", "📝"), ("clipboard", "📋"),
  ("calendar", "📅"), ("chart_with_upwards_trend", "📈"),
  ("chart_with_downwards_trend", "📉"), ("bar_chart", "📊"),
  ("computer", "💻"), ("desktop_computer", "🖥️"), ("keyboard", "⌨️"),
  ("mouse", "🖱️"), ("cd", "💿"), ("dvd", "📀"), ("floppy_disk", "💾"),
  ("electric_plug", "🔌"), ("battery", "🔋"), ("satellite", "📡"),
  ("tv", "📺"), ("radio", "📻"), ("telephone_receiver", "📞"),
  ("iphone", "📱"), ("calling", "📲"), ("email", "📧"), ("inbox_tray", "📥"),
  ("outbox_tray", "📤"), ("envelope", "✉️"), ("package", "📦"),
  ("sunny", "☀️"), ("cloud", "☁️"), ("umbrella", "☂️"), ("snowflake", "❄️"),
  ("rainbow", "🌈"), ("ocean", "🌊"), ("earth_americas", "🌎"),
  ("seedling", "🌱"), ("evergreen_tree", "🌲"), ("deciduous_tree", "🌳"),
  ("cactus", "🌵"), ("fallen_leaf", "🍂"), ("maple_leaf", "🍁"),
  ("mushroom", "🍄"), ("rose", "🌹"), ("sunflower", "🌻"), ("blossom", "🌼"),
  ("dog", "🐶"), ("cat", "🐱"), ("mouse_face", "🐭"), ("bear", "🐻"),
  ("panda_face", "🐼"), ("penguin", "🐧"), ("bird", "🐦"), ("eagle", "🦅"),
  ("butterfly", "🦋"), ("bug", "🐛"), ("bee", "🐝"), ("turtle", "🐢"),
  ("snake", "🐍"), ("unicorn_face", "🦄"), ("unicorn", "🦄"),
  ("coffee", "☕"), ("tea", "🍵"), ("beer", "🍺"), ("beers", "🍻"),
  ("wine_glass", "🍷"), ("cocktail", "🍸"), ("pizza", "🍕"),
  ("hamburger", "🍔"), ("taco", "🌮"), ("burrito", "🌯"),
  ("cookie", "🍪"), ("cake", "🎂"), ("ice_cream", "🍦"),
  ("arrow_right", "➡️"), ("arrow_left", "⬅️"), ("arrow_up", "⬆️"), ("arrow_down", "⬇️"),
  ("arrow_upper_right", "↗️"), ("arrow_lower_right", "↘️"),
  ("arrow_upper_left", "↖️"), ("arrow_lower_left", "↙️"),
  ("leftwards_arrow_with_hook", "↩️"), ("arrow_right_hook", "↪️"),
  ("arrows_counterclockwise", "🔄"), ("arrow_forward", "▶️"),
  ("arrow_backward", "◀️"), ("fast_forward", "⏩"), ("rewind", "⏪"),
  ("infinity", "♾️"), ("recycle", "♻️")]

/-- Table lookup, modelling the emojiMap[code] indexing. -/
def lookupEmoji (code : List Char) : Option String :=
  emojiMap.lookup (String.mk code)

/-- A character that can occur in no shortcode match: not a colon and not in
the bracket class. Every character of every emoji value is of this kind. -/
def emojiCharOk (c : Char) : Bool := !(c == ':') && !isCodeChar c

/-- An emoji value is nonempty and made of characters outside the shortcode
syntax; this is what makes the substitution idempotent. -/
def emojiStrOk (v : String) : Bool := !v.data.isEmpty && v.data.all emojiCharOk

/-- At the position just after an opening colon, try to read a shortcode body
followed by its closing colon; returns the body and the remainder after the
closing colon. Mirrors one match attempt of the regex. -/
def takeCode (l : List Char) : Option (List Char × List Char) :=
  if (l.takeWhile isCodeChar).isEmpty then none
  else
    match l.drop (l.takeWhile isCodeChar).length with
    | ':' :: rest => some (l.takeWhile isCodeChar, rest)
    | _ => none

theorem takeCode_length {l code after : List Char}
    (h : takeCode l = some (code, after)) : after.length < l.length := by
  unfold takeCode at h
  split at h
  · exact absurd h (by simp)
  · split at h
    · rename_i rest hd
      simp only [Option.some.injEq, Prod.mk.injEq] at h
      obtain ⟨h1, h2⟩ := h
      subst h2
      have hlen := congrArg List.length hd
      rw [List.length_drop] at hlen
      simp only [List.length_cons] at hlen
      omega
    · exact absurd h (by simp)

/-- The left-to-right scanner underlying convertSlackEmoji: at each colon it
attempts a shortcode match; a known shortcode is replaced by its emoji, an
unknown one is kept verbatim, and scanning resumes after the closing colon. -/
def convChars (l : List Char) : List Char :=
  match l with
  | [] => []
  | c :: rest =>
    if c = ':' then
      match h : takeCode rest with
      | some (code, after) =>
        match lookupEmoji code with
        | some em => em.data ++ convChars after
        | none => ':' :: code ++ ':' :: convChars after
      | none => ':' :: convChars rest
    else c :: convChars rest
termination_by l.length
decreasing_by
  all_goals simp only [List.length_cons]
  all_goals first
    | exact Nat.lt_succ_of_lt (takeCode_length h)
    | exact Nat.lt_succ_self _

/-- Model of convertSlackEmoji from src/slack-emoji.ts. -/
def convertSlackEmoji (text : String) : String := ⟨convChars text.data⟩

/-!
Part: Configuration (src/config.ts)

All values come from environment variables at process start; they are opaque
to the program logic, so the embedding fixes representative constants.
requireEnv rejects empty values, so none of these is the empty string.
-/

/-- The single authorized Slack user id (AUTHORIZED_SLACK_USER_ID). -/
def authorizedUserId : String := "U-OWNER"

/-- Repository path holding the dated moment files (MOMENTS_PATH). -/
def momentsPath : String := "content/moments"

/-- Repository path holding uploaded images. -/
def momentsImagesPath : String := "static/images/moments"

/-- Site-relative path used in markdown image embeds. -/
def momentsImagesUrlBase : String := "/images/moments"

/-- Repository owner (GITHUB_OWNER). -/
def githubOwner : String := "OWNER"

/-- Repository name (GITHUB_REPO). -/
def githubRepo : String := "REPO"

/-!
Part: Content store client (src/github.ts)

The remote repository is modelled as an explicit Store value: one map from
date slug to file info for the dated moment files, one map for image blobs,
and a counter generating fresh opaque revision tokens (blob shas) on write.
All GitHub calls are keyed by file path; since the moments path is a fixed
base plus the date slug, the moments map is keyed by the date slug directly.
-/

/-- Content plus revision token of one stored file. -/
structure FileInfo where
  content : String
  sha : String
deriving DecidableEq, Repr

/-- State of the remote repository. -/
structure Store where
  moments : AMap FileInfo
  images : AMap String
  next : Nat
deriving DecidableEq, Repr

/-- Store errors surfaced by the GitHub client, by HTTP status. -/
inductive StoreError where
  | conflict
  | missing
  | httpFailure
deriving DecidableEq, Repr

/-- The err.message text carried by each store error. -/
def StoreError.message : StoreError → String
  | .conflict => "409 Conflict: sha does not match the current file contents"
  | .missing => "404 Not Found"
  | .httpFailure => "HTTP request failed"

/-- Full path inside the repo for a dated moment file (filePath). -/
def filePath (dateSlug : String) : String := momentsPath ++ "/" ++ dateSlug ++ ".md"

/-- Web URL of a dated moment file. -/
def ghUrl (dateSlug : String) : String :=
  "https://github.com/" ++ githubOwner ++ "/" ++ githubRepo ++ "/blob/main/" ++ filePath dateSlug

/-- Fresh opaque revision token for the next write. -/
def freshSha (st : Store) : String := "sha-" ++ toString st.next

/-- Model of getFile: fetch an existing dated file, or none on 404. -/
def getFile (st : Store) (dateSlug : String) : Option FileInfo :=
  st.moments.get dateSlug

/-- Write a dated moment file, assigning it a fresh revision token. -/
def putMoment (st : Store) (dateSlug content : String) : Store :=
  { st with
    moments := st.moments.set dateSlug ⟨content, freshSha st⟩
    next := st.next + 1 }

/-!
Part: Oracles, outputs and orchestrator state
-/

/-- Intent labels returned by classifyIntent. -/
inductive Intent where
  | moment
  | instruction
  | unclear
deriving DecidableEq, Repr

/-- Result shape of classifyIntent (src/ai.ts). -/
structure ClassifyResult where
  intent : Intent
  reason : String
  response : String
deriving DecidableEq, Repr

/-- Review actions returned by reviewMoment. -/
inductive ReviewAction where
  | publish
  | suggest
deriving DecidableEq, Repr

/-- Result shape of reviewMoment (src/ai.ts). -/
structure ReviewResult where
  action : ReviewAction
  text : String
  explanation : String
deriving DecidableEq, Repr

/-- Actions returned by executeInstruction. -/
inductive InstrAction where
  | edit
  | unclear
  | unsupported
deriving DecidableEq, Repr

/-- Result shape of executeInstruction (src/ai.ts). -/
structure InstructionResult where
  action : InstrAction
  dateSlug : String
  updatedContent : String
  explanation : String
  clarification : String
  unsupportedReason : String
  warning : String
deriving DecidableEq, Repr

/-- Oracles for the asynchronous collaborators consumed by one handler run:
the wall clock, date formatting, the per-attachment download outcome, the
per-filename upload outcome, and the language-model gateway responses (error
values carry the thrown err.message). -/
structure Env where
  now : Nat
  timestampStr : String
  daySlug : Nat → String
  download : Nat → Option String
  uploadOk : String → Bool
  classifyRes : Except String ClassifyResult
  reviewRes : Except String ReviewResult
  craftRes : Except String String
  instrRes : Except String InstructionResult

/-- Date slug for today (todaySlug in src/github.ts). -/
def todaySlug (env : Env) : String := env.daySlug 0

/-- Externally visible events recorded by a handler run: outbound messages,
language-model gateway calls, and repository writes. -/
inductive Output where
  | reply (text : String)
  | lmCall (kind : String) (arg : String)
  | storeAdd (dateSlug : String) (entry : String)
  | storeUpdate (dateSlug : String) (content : String)
  | imageWrite (filename : String)
deriving DecidableEq, Repr

/-- Is the output a language-model gateway call. -/
def Output.isLmCall : Output → Bool
  | .lmCall _ _ => true
  | _ => false

/-- Is the output a write to a dated moment file. -/
def Output.isMomentWrite : Output → Bool
  | .storeAdd _ _ => true
  | .storeUpdate _ _ => true
  | _ => false

/-- Created/url result of addMoment. -/
structure AddResult where
  created : Bool
  url : String
deriving DecidableEq, Repr

/-- Model of addMoment (src/github.ts): append to the existing dated file
with a horizontal-rule separator, or create the file with YAML frontmatter. -/
def addMoment (env : Env) (st : Store) (text : String) (slugOpt : Option String) :
    Store × AddResult × List Output :=
  let slug := slugOpt.getD (todaySlug env)
  match getFile st slug with
  | some existing =>
    let newContent := (jsTrimEnd existing.content) ++ "\n\n---\n\n" ++ (jsTrim text) ++ "\n"
    (putMoment st slug newContent, ⟨false, ghUrl slug⟩, [.storeAdd slug text])
  | none =>
    let newContent := "---\ndate: \"" ++ slug ++ "\"\n---\n\n" ++ (jsTrim text) ++ "\n"
    (putMoment st slug newContent, ⟨true, ghUrl slug⟩, [.storeAdd slug text])

/-- Model of getTodayEntries: content of the current day, where an empty file
collapses to absent (the source returns file?.content or null). -/
def getTodayEntries (env : Env) (st : Store) : Option String :=
  match getFile st (todaySlug env) with
  | some f => if f.content = "" then none else some f.content
  | none => none

/-- Model of uploadImage: store an image blob, succeeding or failing per the
upload oracle; returns the markdown-ready URL path. -/
def uploadImage (env : Env) (st : Store) (buf filename : String) :
    Except StoreError (Store × String) :=
  if env.uploadOk filename then
    .ok ({ st with images := st.images.set (momentsImagesPath ++ "/" ++ filename) buf
                   next := st.next + 1 },
         momentsImagesUrlBase ++ "/" ++ filename)
  else .error .httpFailure

/-- One recent dated file as returned by getRecentMoments. -/
structure MomentFile where
  dateSlug : String
  content : String
  sha : String
deriving DecidableEq, Repr

/-- Model of getRecentMoments: files for today back through the given number
of days, most recent first, existing files only. -/
def getRecentMoments (env : Env) (st : Store) (days : Nat) : List MomentFile :=
  (List.range (days + 1)).filterMap fun i =>
    (getFile st (env.daySlug i)).map fun f => ⟨env.daySlug i, f.content, f.sha⟩

/-- Model of updateMomentFile: compare-and-swap write of a complete dated
file, rejected when the given revision token is stale. -/
def updateMomentFile (st : Store) (dateSlug newContent sha commitMessage : String) :
    Except StoreError (Store × String) :=
  match getFile st dateSlug with
  | none => .error .missing
  | some fi =>
    if fi.sha = sha then .ok (putMoment st dateSlug newContent, ghUrl dateSlug)
    else .error .conflict

/-!
Part: Image pipeline (src/images.ts)
-/

/-- Slack file attachment fields used by the pipeline; absent string fields
are represented by the empty string (JavaScript falsiness). -/
structure SlackFile where
  id : String
  name : String
  mimetype : String
  url_private_download : String
deriving DecidableEq, Repr

/-- Inbound Slack message fields used by the orchestrator. -/
structure SlackMessage where
  subtype : Option String
  text : Option String
  files : List SlackFile
  user : Option String
deriving DecidableEq, Repr

/-- MIME types accepted by the pipeline. -/
def supportedMimeTypes : List String :=
  ["image/png", "image/jpeg", "image/gif", "image/webp"]

/-- MIME type to filename extension, defaulting to png. -/
def mimeToExt (mime : String) : String :=
  (List.lookup mime
    [("image/png", "png"), ("image/jpeg", "jpg"), ("image/gif", "gif"), ("image/webp", "webp")]).getD "png"

/-- Model of extractImageFiles: keep attachments with a supported image MIME
type and a download URL, defaulting a missing name to "image". -/
def extractImageFiles (msg : SlackMessage) : List SlackFile :=
  (msg.files.filter fun f =>
    !f.mimetype.data.isEmpty && supportedMimeTypes.contains f.mimetype
      && !f.url_private_download.data.isEmpty).map fun f =>
    { f with name := if f.name = "" then "image" else f.name }

/-- Downloaded image ready for upload. -/
structure ProcessedImage where
  filename : String
  buffer : String
  markdownEmbed : String
deriving DecidableEq, Repr

/-- Generated filename for the attachment at the given zero-based index. -/
def imageFilename (env : Env) (dateSlug : String) (i : Nat) (f : SlackFile) : String :=
  dateSlug ++ "-" ++ env.timestampStr ++ "-" ++ toString (i + 1) ++ "." ++ mimeToExt f.mimetype

/-- Markdown embed string for a generated filename. -/
def imageEmbed (filename : String) : String :=
  "![image](" ++ momentsImagesUrlBase ++ "/" ++ filename ++ ")"

/-- Download loop of processMessageImages: a failed download (oracle none) is
skipped; successes keep their order and their absolute index. -/
def pmiGo (env : Env) (dateSlug : String) : Nat → List SlackFile → List ProcessedImage
  | _, [] => []
  | i, f :: rest =>
    match env.download i with
    | some b =>
      ⟨imageFilename env dateSlug i f, b, imageEmbed (imageFilename env dateSlug i f)⟩
        :: pmiGo env dateSlug (i + 1) rest
    | none => pmiGo env dateSlug (i + 1) rest

/-- Model of processMessageImages (src/images.ts). -/
def processMessageImages (env : Env) (msg : SlackMessage) (dateSlug : String) :
    List ProcessedImage :=
  let imageFiles := extractImageFiles msg
  if imageFiles.isEmpty then [] else pmiGo env dateSlug 0 imageFiles

/-!
Part: Conversation orchestrator (src/bot.ts)
-/

/-- Pending proposal awaiting accept/reject (PendingProposal). -/
structure PendingProposal where
  text : String
  imageEmbeds : List String
deriving DecidableEq, Repr

/-- Unclear message awaiting the user choice (PendingUnclear). -/
structure PendingUnclear where
  text : String
  message : SlackMessage
deriving DecidableEq, Repr

/-- Pending edit awaiting approval (PendingEdit). -/
structure PendingEdit where
  dateSlug : String
  updatedContent : String
  sha : String
  explanation : String
deriving DecidableEq, Repr

/-- Clarification-loop context (ConversationContext). -/
structure ConversationContext where
  originalInstruction : String
  originalMessage : SlackMessage
  clarificationQuestion : String
  newImagePath : Option String
  timestamp : Nat
deriving DecidableEq, Repr

/-- The four in-memory per-user maps owned by the orchestrator. -/
structure BotState where
  pendingProposals : AMap PendingProposal
  pendingUnclear : AMap PendingUnclear
  pendingEdits : AMap PendingEdit
  conversationContext : AMap ConversationContext
deriving DecidableEq, Repr

/-- Model of hasActiveConversation: a context older than five minutes is
purged on access and reported absent. -/
def hasActiveConversation (env : Env) (s : BotState) (userId : String) : Bool × BotState :=
  match s.conversationContext.get userId with
  | none => (false, s)
  | some ctx =>
    if 5 * 60 * 1000 < env.now - ctx.timestamp then
      (false, { s with conversationContext := s.conversationContext.del userId })
    else (true, s)

/-- Model of combineTextAndImages. -/
def combineTextAndImages (text : String) (imageEmbeds : List String) : String :=
  if imageEmbeds.isEmpty then text
  else if text = "" then joinSep "\n\n" imageEmbeds
  else text ++ "\n\n" ++ joinSep "\n\n" imageEmbeds

/-- Model of processAndUploadImages upload loop: a failed upload is skipped,
successes append their markdown embeds in order. -/
def pauGo (env : Env) : Store → List ProcessedImage → Store × List Output × List String
  | st, [] => (st, [], [])
  | st, img :: rest =>
    match uploadImage env st img.buffer img.filename with
    | .ok (st1, _) =>
      let (st2, outs, embeds) := pauGo env st1 rest
      (st2, .imageWrite img.filename :: outs, img.markdownEmbed :: embeds)
    | .error _ => pauGo env st rest

/-- Model of processAndUploadImages (src/bot.ts): download from the chat
transport, upload to the repository, return the markdown embeds of the
attachments for which both steps succeeded. -/
def processAndUploadImages (env : Env) (st : Store) (msg : SlackMessage) :
    Store × List Output × List String :=
  pauGo env st (processMessageImages env msg (todaySlug env))

/-- Confirmation text after a successful publish. -/
def publishReply (text : String) (res : AddResult) : String :=
  "✅ " ++ (if res.created then "Created" else "Added to") ++ " today\x27s moments!\n\n> "
    ++ splitNlJoin "\n> " text ++ "\n\n🔗 " ++ res.url

/-- Model of publishAndNotify: commit the text and confirm. -/
def publishAndNotify (env : Env) (st : Store) (text : String) : Store × List Output :=
  let (st1, res, wouts) := addMoment env st text none
  (st1, wouts ++ [.reply (publishReply text res)])

/-- Model of publishAndConfirm (button-handler variant of publishAndNotify;
the store in this embedding cannot fail an append, so the catch branch does
not arise). -/
def publishAndConfirm (env : Env) (st : Store) (text : String) : Store × List Output :=
  let (st1, res, wouts) := addMoment env st text none
  (st1, wouts ++ [.reply (publishReply text res)])

/-- Model of proposeSuggestion state effect: store the proposal for the
single user and present the choice (fallback text recorded). -/
def proposeSuggestion (s : BotState) (suggested : String) (imageEmbeds : List String) :
    BotState × List Output :=
  ({ s with pendingProposals := s.pendingProposals.set authorizedUserId ⟨suggested, imageEmbeds⟩ },
   [.reply "I have a suggestion for your moment"])

/-- Model of proposeCrafted. -/
def proposeCrafted (s : BotState) (crafted : String) : BotState × List Output :=
  ({ s with pendingProposals := s.pendingProposals.set authorizedUserId ⟨crafted, []⟩ },
   [.reply "Here\x27s a crafted moment for you"])

/-- Model of processAsMoment (src/bot.ts lines 409-473): run image transfer
and review concurrently, degrade when all images fail, then publish directly
or store a proposal depending on the review action. -/
def processAsMoment (env : Env) (s : BotState) (st : Store) (text : String)
    (msg : SlackMessage) (hasImages : Bool) : BotState × Store × List Output :=
  let hasText := !text.data.isEmpty
  let preReply :=
    if hasImages && hasText then "🔍 Reviewing your moment and processing image(s)..."
    else if hasImages then "🔍 Processing your image(s)..."
    else "🔍 Reviewing your moment..."
  let (st1, iouts, imageEmbeds) :=
    if hasImages then processAndUploadImages env st msg else (st, [], [])
  let base := Output.reply preReply :: iouts
    ++ (if hasText then [Output.lmCall "review" text] else [])
  match (if hasText then Except.map some env.reviewRes else .ok none) with
  | .error e => (s, st1, base ++ [.reply ("❌ Something went wrong: " ++ e)])
  | .ok review =>
    if hasImages && imageEmbeds.isEmpty then
      if hasText then
        match review with
        | some rv =>
          if rv.action = ReviewAction.publish then
            let (st2, pouts) := publishAndNotify env st1 rv.text
            (s, st2, base ++ pouts
              ++ [.reply "⚠️ Couldn\x27t include the image(s), but your text was published."])
          else
            let (s1, souts) := proposeSuggestion s rv.text []
            (s1, st1, base ++ souts
              ++ [.reply "⚠️ Couldn\x27t process the image(s). They won\x27t be included."])
        | none => (s, st1, base)
      else (s, st1, base ++ [.reply "❌ Couldn\x27t process the image(s). Please try again."])
    else if !hasText then
      let (st2, pouts) := publishAndNotify env st1 (joinSep "\n\n" imageEmbeds)
      (s, st2, base ++ pouts)
    else
      match review with
      | some rv =>
        if rv.action = ReviewAction.publish then
          let (st2, pouts) := publishAndNotify env st1 (combineTextAndImages rv.text imageEmbeds)
          (s, st2, base ++ pouts)
        else
          let (s1, souts) := proposeSuggestion s rv.text imageEmbeds
          (s1, st1, base ++ souts)
      | none => (s, st1, base)

/-- Scan for the first occurrence of the two characters bang bracket,
returning the suffix after them. -/
def eepAfterBang : List Char → Option (List Char)
  | [] => none
  | '!' :: '[' :: rest => some rest
  | _ :: rest => eepAfterBang rest

/-- Scan for the first occurrence of closing bracket plus opening paren,
returning the suffix after them. -/
def eepAfterParen : List Char → Option (List Char)
  | [] => none
  | ']' :: '(' :: rest => some rest
  | _ :: rest => eepAfterParen rest

/-- Collect characters up to the first closing paren. -/
def eepUntilClose : List Char → Option (List Char)
  | [] => none
  | c :: rest =>
    if c = ')' then some []
    else (eepUntilClose rest).map (c :: ·)

/-- Model of the embed-path extraction embeds[0].match on the lazy markdown
image regex: the captured path of the leftmost complete embed. Because the
closing paren search is lazy and any later match start lies to the right, the
straight-line scan is equivalent to the regex. -/
def extractEmbedPath (s : String) : Option String :=
  (eepAfterBang s.data).bind fun r1 =>
    (eepAfterParen r1).bind fun r2 =>
      (eepUntilClose r2).map String.mk

/-- Model of handleInstruction (src/bot.ts lines 476-600): upload any
attached image, fetch recent files, call the edit-execution gateway and act
on its decision. -/
def handleInstruction (env : Env) (s : BotState) (st : Store) (text : String)
    (msg : SlackMessage) : BotState × Store × List Output :=
  let out0 : List Output := [.reply "🔧 Working on your request..."]
  let hasImages := decide (0 < (extractImageFiles msg).length)
  let (st1, iouts, embeds) :=
    if hasImages then processAndUploadImages env st msg else (st, [], [])
  if hasImages && embeds.isEmpty then
    (s, st1, out0 ++ iouts
      ++ [.reply "⚠️ I couldn\x27t process the image you attached. Please try sending your request again with the image."])
  else
    let newImagePath : Option String :=
      if hasImages then embeds.head?.bind extractEmbedPath else none
    let recent := getRecentMoments env st1 5
    if recent.isEmpty then
      (s, st1, out0 ++ iouts
        ++ [.reply "📭 No recent moments found to edit. Send me a new moment instead!"])
    else
      let acc := out0 ++ iouts ++ [Output.lmCall "instruction" text]
      match env.instrRes with
      | .error e => (s, st1, acc ++ [.reply ("❌ Something went wrong: " ++ e)])
      | .ok r =>
        match r.action with
        | .unsupported => (s, st1, acc ++ [.reply ("😔 " ++ r.unsupportedReason)])
        | .unclear =>
          let ctx : ConversationContext := ⟨text, msg, r.clarification, newImagePath, env.now⟩
          ({ s with conversationContext := s.conversationContext.set authorizedUserId ctx },
           st1, acc ++ [.reply ("🤔 " ++ r.clarification)])
        | .edit =>
          match recent.find? (fun m => m.dateSlug == r.dateSlug) with
          | none =>
            (s, st1, acc ++ [.reply ("⚠️ Couldn\x27t find the moment file for "
              ++ r.dateSlug ++ ". Something went wrong.")])
          | some target =>
            let pe : PendingEdit := ⟨r.dateSlug, r.updatedContent, target.sha, r.explanation⟩
            ({ s with pendingEdits := s.pendingEdits.set authorizedUserId pe },
             st1, acc ++ [.reply ("Proposed edit to " ++ r.dateSlug)])

/-- Model of handleFollowUp (src/bot.ts lines 603-719): consume the stored
context, rebuild the combined instruction and re-enter the edit gateway. -/
def handleFollowUp (env : Env) (s : BotState) (st : Store) (userId replyText : String)
    (msg : SlackMessage) : BotState × Store × List Output :=
  match s.conversationContext.get userId with
  | none => (s, st, [])
  | some ctx =>
    let s1 := { s with conversationContext := s.conversationContext.del userId }
    let out0 : List Output := [.reply "🔧 Working on your request..."]
    let hasImages := decide (0 < (extractImageFiles msg).length)
    let needUpload := hasImages && ctx.newImagePath.isNone
    let (st1, iouts, embeds) :=
      if needUpload then processAndUploadImages env st msg else (st, [], [])
    let newImagePath :=
      if needUpload && !embeds.isEmpty then embeds.head?.bind extractEmbedPath
      else ctx.newImagePath
    let recent := getRecentMoments env st1 5
    if recent.isEmpty then
      (s1, st1, out0 ++ iouts ++ [.reply "📭 No recent moments found to edit."])
    else
      let combined := "Original request: " ++ ctx.originalInstruction
        ++ "\nBot asked: " ++ ctx.clarificationQuestion
        ++ "\nUser replied: " ++ replyText
      let acc := out0 ++ iouts ++ [Output.lmCall "instruction" combined]
      match env.instrRes with
      | .error e => (s1, st1, acc ++ [.reply ("❌ Something went wrong: " ++ e)])
      | .ok r =>
        match r.action with
        | .unsupported => (s1, st1, acc ++ [.reply ("😔 " ++ r.unsupportedReason)])
        | .unclear =>
          let ctx1 : ConversationContext :=
            ⟨ctx.originalInstruction, ctx.originalMessage, r.clarification, newImagePath, env.now⟩
          ({ s1 with conversationContext := s1.conversationContext.set userId ctx1 },
           st1, acc ++ [.reply ("🤔 " ++ r.clarification)])
        | .edit =>
          match recent.find? (fun m => m.dateSlug == r.dateSlug) with
          | none =>
            (s1, st1, acc ++ [.reply ("⚠️ Couldn\x27t find the moment file for "
              ++ r.dateSlug ++ ".")])
          | some target =>
            let pe : PendingEdit := ⟨r.dateSlug, r.updatedContent, target.sha, r.explanation⟩
            ({ s1 with pendingEdits := s1.pendingEdits.set userId pe },
             st1, acc ++ [.reply ("Proposed edit to " ++ r.dateSlug)])

/-- Model of handleCraft: call the crafting gateway and store the result as a
proposal. -/
def handleCraft (env : Env) (s : BotState) (st : Store) (idea : String) :
    BotState × Store × List Output :=
  let base : List Output := [.reply "✨ Crafting your moment...", .lmCall "craft" idea]
  match env.craftRes with
  | .ok crafted =>
    let (s1, pouts) := proposeCrafted s crafted
    (s1, st, base ++ pouts)
  | .error e => (s, st, base ++ [.reply ("❌ Something went wrong: " ++ e)])

/-- Model of handleShowToday. -/
def handleShowToday (env : Env) (s : BotState) (st : Store) :
    BotState × Store × List Output :=
  match getTodayEntries env st with
  | none => (s, st, [.reply ("📭 No moments yet for " ++ todaySlug env ++ ". Send me one!")])
  | some entries =>
    (s, st, [.reply ("📝 *Moments for " ++ todaySlug env ++ ":*\n\n```\n" ++ entries ++ "\n```")])

/-- Model of handleNewMoment (src/bot.ts lines 329-406): image-only messages
publish immediately; otherwise classify intent, routing to the instruction
flow, the unclear choice, or the publish flow, with classification failure
defaulting to the publish flow. -/
def handleNewMoment (env : Env) (s : BotState) (st : Store) (text : String)
    (msg : SlackMessage) : BotState × Store × List Output :=
  let hasImages := decide (0 < (extractImageFiles msg).length)
  let hasText := !text.data.isEmpty
  if !hasText && hasImages then
    let (st1, iouts, embeds) := processAndUploadImages env st msg
    if embeds.isEmpty then
      (s, st1, Output.reply "🔍 Processing your image(s)..." :: iouts
        ++ [.reply "❌ Couldn\x27t process the image(s). Please try again."])
    else
      let (st2, pouts) := publishAndNotify env st1 (joinSep "\n\n" embeds)
      (s, st2, Output.reply "🔍 Processing your image(s)..." :: iouts ++ pouts)
  else
    match env.classifyRes with
    | .ok c =>
      match c.intent with
      | .instruction =>
        let (s1, st1, outs) := handleInstruction env s st text msg
        (s1, st1, Output.lmCall "classify" text :: outs)
      | .unclear =>
        ({ s with pendingUnclear := s.pendingUnclear.set authorizedUserId ⟨text, msg⟩ }, st,
         [Output.lmCall "classify" text,
          .reply "I\x27m not sure if this is a moment to publish or an instruction for me"])
      | .moment =>
        let (s1, st1, outs) := processAsMoment env s st text msg hasImages
        (s1, st1, Output.lmCall "classify" text :: outs)
    | .error _ =>
      let (s1, st1, outs) := processAsMoment env s st text msg hasImages
      (s1, st1, Output.lmCall "classify" text :: outs)

/-!
Part: Button action handlers (src/bot.ts lines 151-323)

Each handler no-ops for any user other than the authorized one and reports
"nothing pending" when the expected state slot is empty.
-/

/-- Model of the accept_suggestion action handler. -/
def acceptSuggestion (env : Env) (s : BotState) (st : Store) (userId : String) :
    BotState × Store × List Output :=
  if userId = authorizedUserId then
    match s.pendingProposals.get userId with
    | none => (s, st, [.reply "⚠️ No pending proposal found. Send a new moment!"])
    | some p =>
      let s1 := { s with pendingProposals := s.pendingProposals.del userId }
      let fullText := combineTextAndImages p.text p.imageEmbeds
      let (st1, pouts) := publishAndConfirm env st fullText
      (s1, st1, pouts)
  else (s, st, [])

/-- Model of the reject_suggestion action handler. -/
def rejectSuggestion (s : BotState) (st : Store) (userId : String) :
    BotState × Store × List Output :=
  if userId = authorizedUserId then
    ({ s with pendingProposals := s.pendingProposals.del userId }, st,
     [.reply "👍 No worries! Send me the text you\x27d like to publish, or ask me to help you write it."])
  else (s, st, [])

/-- Model of the approve_edit action handler: clear the pending edit, then
attempt the compare-and-swap write with the captured revision token. -/
def approveEdit (env : Env) (s : BotState) (st : Store) (userId : String) :
    BotState × Store × List Output :=
  if userId = authorizedUserId then
    match s.pendingEdits.get userId with
    | none => (s, st, [.reply "⚠️ No pending edit found. Send a new instruction!"])
    | some edit =>
      let s1 := { s with pendingEdits := s.pendingEdits.del userId }
      match updateMomentFile st edit.dateSlug edit.updatedContent edit.sha
          ("Edit moment for " ++ edit.dateSlug) with
      | .ok (st1, url) =>
        (s1, st1, [.storeUpdate edit.dateSlug edit.updatedContent,
          .reply ("✅ Edit applied to " ++ edit.dateSlug ++ "!\n\n" ++ edit.explanation
            ++ "\n\n🔗 " ++ url)])
      | .error e =>
        (s1, st, [.reply ("❌ Failed to apply edit: " ++ e.message)])
  else (s, st, [])

/-- Model of the reject_edit action handler. -/
def rejectEdit (s : BotState) (st : Store) (userId : String) :
    BotState × Store × List Output :=
  if userId = authorizedUserId then
    ({ s with pendingEdits := s.pendingEdits.del userId }, st,
     [.reply "👍 Edit discarded. Let me know if you\x27d like to try something else."])
  else (s, st, [])

/-- Model of the publish_original action handler: the original text travels
in the button payload and is substituted again before the commit. -/
def publishOriginal (env : Env) (s : BotState) (st : Store) (userId : String)
    (value : Option String) : BotState × Store × List Output :=
  if userId = authorizedUserId then
    match value with
    | none => (s, st, [.reply "⚠️ Couldn\x27t find the original text. Please send it again."])
    | some originalText =>
      if originalText = "" then
        (s, st, [.reply "⚠️ Couldn\x27t find the original text. Please send it again."])
      else
        let imageEmbeds := match s.pendingProposals.get userId with
          | some p => p.imageEmbeds
          | none => []
        let s1 := { s with pendingProposals := s.pendingProposals.del userId }
        let fullText := combineTextAndImages (convertSlackEmoji originalText) imageEmbeds
        let (st1, pouts) := publishAndConfirm env st fullText
        (s1, st1, pouts)
  else (s, st, [])

/-- Model of the treat_as_moment action handler. -/
def treatAsMoment (env : Env) (s : BotState) (st : Store) (userId : String) :
    BotState × Store × List Output :=
  if userId = authorizedUserId then
    match s.pendingUnclear.get userId with
    | none => (s, st, [.reply "⚠️ Couldn\x27t find the original message. Please send it again."])
    | some pending =>
      let s1 := { s with pendingUnclear := s.pendingUnclear.del userId }
      let hasImages := decide (0 < (extractImageFiles pending.message).length)
      processAsMoment env s1 st pending.text pending.message hasImages
  else (s, st, [])

/-- Model of the treat_as_instruction action handler (this one deletes the
slot before checking it). -/
def treatAsInstruction (env : Env) (s : BotState) (st : Store) (userId : String) :
    BotState × Store × List Output :=
  if userId = authorizedUserId then
    let pending := s.pendingUnclear.get userId
    let s1 := { s with pendingUnclear := s.pendingUnclear.del userId }
    match pending with
    | none => (s1, st, [.reply "⚠️ Couldn\x27t find the original message. Please send it again."])
    | some p => handleInstruction env s1 st p.text p.message
  else (s, st, [])

/-!
Part: Command regexes and the inbound message router

The three fixed-command regexes of app.message are anchored prefix patterns;
they are compiled here into a small backtracking matcher whose result list is
ordered by the JavaScript backtracking preference (alternation left first,
quantifiers greedy), so its head is the JavaScript match.
-/

/-- Abstract syntax of the anchored command patterns. -/
inductive Pat where
  | lit : String → Pat
  | ws1 : Pat
  | ws0 : Pat
  | anyOpt : Pat
  | opt : Pat → Pat
  | alt2 : Pat → Pat → Pat
  | seq2 : Pat → Pat → Pat

/-- Remainders after consuming whitespace, longest consumption first; the
flag requires at least one character (backslash-s plus versus star). -/
def wsSplits (needOne : Bool) (s : List Char) : List (List Char) :=
  ((List.range ((s.takeWhile jsWs).length + 1)).reverse).filterMap fun j =>
    if needOne ∧ j = 0 then none else some (s.drop j)

/-- All remainders of matching a pattern at the head of the input, in
JavaScript backtracking order. -/
def pmatch : Pat → List Char → List (List Char)
  | .lit w, s => if w.data.isPrefixOf s then [s.drop w.data.length] else []
  | .ws1, s => wsSplits true s
  | .ws0, s => wsSplits false s
  | .anyOpt, s =>
    match s with
    | [] => [[]]
    | c :: rest =>
      if c = '\n' || c = '\r' || c.toNat = 8232 || c.toNat = 8233 then [c :: rest]
      else [rest, c :: rest]
  | .opt p, s => pmatch p s ++ [s]
  | .alt2 p q, s => pmatch p s ++ pmatch q s
  | .seq2 p q, s => (pmatch p s).flatMap (pmatch q)

/-- Anchored case-insensitive test of a pattern against a string. -/
def matchTest (p : Pat) (s : String) : Bool :=
  !(pmatch p (jsToLower s).data).isEmpty

/-- Model of text.replace(pattern, empty string) for an anchored pattern:
drop the characters consumed by the JavaScript match, if any. -/
def stripMatch (p : Pat) (s : String) : String :=
  match pmatch p (jsToLower s).data with
  | [] => s
  | rem :: _ => ⟨s.data.drop (s.data.length - rem.length)⟩

/-- The show-today command pattern. -/
def patShowToday : Pat :=
  .alt2 (.seq2 (.lit "show") (.seq2 .ws1 (.lit "today")))
    (.alt2 (.lit "today")
      (.seq2 (.lit "what") (.seq2 .anyOpt (.seq2 (.lit "s") (.seq2 .ws1 (.lit "today"))))))

/-- The craft command test pattern. -/
def patCraftTest : Pat :=
  .alt2
    (.seq2 (.lit "help") (.seq2 .ws1 (.seq2 (.lit "me")
      (.seq2 .ws1 (.alt2 (.lit "write") (.alt2 (.lit "craft") (.lit "post")))))))
    (.seq2 (.lit "make") (.seq2 .ws1 (.seq2 (.opt (.seq2 (.lit "this") .ws1))
      (.seq2 (.opt (.lit "a")) (.seq2 .ws0 (.seq2 (.opt (.seq2 (.lit "nice") .ws1)) (.lit "post")))))))

/-- The craft command topic-extraction pattern (the replace regex). -/
def patCraftTopic : Pat :=
  .seq2
    (.alt2
      (.seq2 (.lit "help") (.seq2 .ws1 (.seq2 (.lit "me")
        (.seq2 .ws1 (.seq2 (.alt2 (.lit "write") (.alt2 (.lit "craft") (.lit "post")))
          (.seq2 .ws0 (.opt (.lit "about"))))))))
      (.seq2 (.lit "make") (.seq2 .ws1 (.seq2 (.opt (.seq2 (.lit "this") .ws1))
        (.seq2 (.opt (.lit "a")) (.seq2 .ws0 (.seq2 (.opt (.seq2 (.lit "nice") .ws1))
          (.seq2 (.lit "post") (.seq2 .ws0 (.opt (.alt2 (.lit "about") (.lit "of"))))))))))))
    .ws0

/-- Fixed rejection reply for any message from a non-authorized sender. -/
def unauthorizedReply : String := "🔒 Sorry, I\x27m a private bot. I only work for my owner."

/-- Static capability summary for the bare help command. -/
def helpReply : String :=
  "👋 *Moments Bot* — your private microblog assistant\n\n"
  ++ "Just send me a thought and I\x27ll post it to your moments page.\n\n"
  ++ "• *Send any text* → I\x27ll review it and publish (or suggest edits)\n"
  ++ "• *Send an image* (with or without text) → I\x27ll include it in your moment\n"
  ++ "• *help me write about <topic>* → I\x27ll craft a nice moment for you\n"
  ++ "• *show today* → see what\x27s been posted today\n"
  ++ "• *help* → this message"

/-- Model of the app.message router (src/bot.ts lines 83-146): filter
subtypes, ignore empty messages, reject non-authorized senders, dispatch
fixed commands, clarification follow-ups, and new moments. -/
def appMessage (env : Env) (s : BotState) (st : Store) (msg : SlackMessage) :
    BotState × Store × List Output :=
  if !(msg.subtype.isNone || msg.subtype == some "file_share") then (s, st, [])
  else
    let hasText := match msg.text with
      | some t => !t.data.isEmpty
      | none => false
    let hasImages := decide (0 < (extractImageFiles msg).length)
    if !hasText && !hasImages then (s, st, [])
    else
      match msg.user with
      | none => (s, st, [.reply unauthorizedReply])
      | some userId =>
        if userId = "" ∨ ¬(userId = authorizedUserId) then (s, st, [.reply unauthorizedReply])
        else
          let text := if hasText then jsTrim (msg.text.getD "") else ""
          if !text.data.isEmpty && matchTest patShowToday text then
            handleShowToday env s st
          else if !text.data.isEmpty && matchTest patCraftTest text then
            let idea := jsTrim (stripMatch patCraftTopic text)
            if idea.data.isEmpty then
              (s, st, [.reply "💡 Tell me what you\x27d like to write about! e.g.\n> help me write about discovering a cool new tool"])
            else handleCraft env s st (convertSlackEmoji idea)
          else if !text.data.isEmpty && jsToLower text == "help" then
            (s, st, [.reply helpReply])
          else
            let ac := if !text.data.isEmpty then hasActiveConversation env s userId else (false, s)
            if !text.data.isEmpty && ac.1 then
              handleFollowUp env ac.2 st userId (convertSlackEmoji text) msg
            else
              handleNewMoment env ac.2 st (if !text.data.isEmpty then convertSlackEmoji text else "") msg

/-!
Part: Concrete fixtures used to instantiate the theorems
-/

/-- Sample oracle environment: all transfers succeed, the review decision is
publish, and the edit gateway proposes an edit to the previous day. -/
def wEnv : Env where
  now := 1000000
  timestampStr := "084037"
  daySlug := fun i => if i = 0 then "2026-02-11" else if i = 1 then "2026-02-10" else "2026-02-09"
  download := fun _ => some "IMGBYTES"
  uploadOk := fun _ => true
  classifyRes := .ok ⟨.moment, "", ""⟩
  reviewRes := .ok ⟨.publish, "reviewed text", ""⟩
  craftRes := .ok "crafted text"
  instrRes := .ok ⟨.edit, "2026-02-10", "I liek the new tool", "fixed the typo", "", "", ""⟩

/-- Empty orchestrator state. -/
def wState : BotState := ⟨[], [], [], []⟩

/-- Sample store holding one file for the previous day. -/
def wStore : Store := ⟨[("2026-02-10", ⟨"I liek teh new tool", "sha-a"⟩)], [], 0⟩

/-- Sample text-only message from the authorized user. -/
def wMsg : SlackMessage := ⟨none, some "hello world", [], some authorizedUserId⟩

/-- Sample image-only message from the authorized user with two photos. -/
def wImgMsg : SlackMessage :=
  ⟨some "file_share", none,
   [⟨"F1", "a.png", "image/png", "https://files/1"⟩,
    ⟨"F2", "b.jpg", "image/jpeg", "https://files/2"⟩], some authorizedUserId⟩

/-!
Part: Association-map lemmas
-/

theorem amap_get_set {V : Type} (m : AMap V) (k : String) (v : V) :
    (m.set k v).get k = some v := by
  induction m with
  | nil => simp [AMap.set, AMap.get]
  | cons p rest ih =>
    obtain ⟨a, w⟩ := p
    by_cases h : a = k
    · simp [AMap.set, h, AMap.get]
    · simp [AMap.set, h, AMap.get, ih]

theorem amap_get_del {V : Type} (m : AMap V) (k : String) :
    (m.del k).get k = none := by
  induction m with
  | nil => rfl
  | cons p rest ih =>
    obtain ⟨a, v⟩ := p
    by_cases h : a = k
    · simpa [AMap.del, List.filter_cons, h] using ih
    · simp only [AMap.del, List.filter_cons] at ih ⊢
      simp [h, AMap.get, ih]

/-!
Part: Claim C7: addMoment content
-/

/-- C7 counterexample: the claim states that when a file for the day already
exists the new file content equals the trimmed existing content, the
separator, and the trimmed new text — but addMoment also appends a
terminating newline, so that equality fails on this concrete input. -/
theorem C7_append_content_cex :
    ((addMoment wEnv wStore "b" (some "2026-02-10")).1.moments.get "2026-02-10").map FileInfo.content
      = some "I liek teh new tool\n\n---\n\nb\n"
    ∧ some "I liek teh new tool\n\n---\n\nb\n"
        ≠ some (jsTrimEnd "I liek teh new tool" ++ "\n\n---\n\n" ++ jsTrim "b") := by
  exact ⟨by decide, by decide⟩

/-- C7 (amended): for every addMoment call, if a file for the day exists the
new content is the existing content with trailing whitespace trimmed,
followed by the horizontal-rule separator surrounded by blank lines, the
trimmed new text, and a terminating newline; if no file exists the new
content is the dated YAML-frontmatter header followed by the trimmed new
text and a terminating newline. -/
theorem C7_addMoment_content (env : Env) (st : Store) (text slug : String) :
    (∀ fi, getFile st slug = some fi →
      ((addMoment env st text (some slug)).1.moments.get slug)
        = some ⟨jsTrimEnd fi.content ++ "\n\n---\n\n" ++ jsTrim text ++ "\n", freshSha st⟩)
    ∧ (getFile st slug = none →
      ((addMoment env st text (some slug)).1.moments.get slug)
        = some ⟨"---\ndate: \"" ++ slug ++ "\"\n---\n\n" ++ jsTrim text ++ "\n", freshSha st⟩) := by
  constructor
  · intro fi h
    simp [addMoment, h, putMoment, amap_get_set]
  · intro h
    simp [addMoment, h, putMoment, amap_get_set]

/-- C7 witness: the amended theorem evaluated at a store holding a file for
the day and at a store without one. -/
theorem C7_addMoment_content_app :
    ((addMoment wEnv wStore " hi " (some "2026-02-10")).1.moments.get "2026-02-10")
      = some ⟨"I liek teh new tool\n\n---\n\nhi\n", "sha-0"⟩
    ∧ ((addMoment wEnv wStore "first" (some "2026-02-11")).1.moments.get "2026-02-11")
      = some ⟨"---\ndate: \"2026-02-11\"\n---\n\nfirst\n", "sha-0"⟩ := by
  constructor
  · have h := (C7_addMoment_content wEnv wStore " hi " "2026-02-10").1
      ⟨"I liek teh new tool", "sha-a"⟩ (by decide)
    rw [h]; decide
  · have h := (C7_addMoment_content wEnv wStore "first" "2026-02-11").2 (by decide)
    rw [h]; decide

/-!
Part: Claim C1: approve-edit with a stale revision token
-/

/-- C1: whenever the pending edit holds a revision token that no longer
matches the current token of the target file, the approve-edit handler fails
the compare-and-swap with a conflict, leaves the store unchanged, discards
the pending edit, and reports the failure with the conflict message, which
differs from the report of every other store error. -/
theorem C1_approve_edit_conflict (env : Env) (s : BotState) (st : Store)
    (edit : PendingEdit) (fi : FileInfo)
    (hpend : s.pendingEdits.get authorizedUserId = some edit)
    (hfile : getFile st edit.dateSlug = some fi)
    (hstale : fi.sha ≠ edit.sha) :
    updateMomentFile st edit.dateSlug edit.updatedContent edit.sha
        ("Edit moment for " ++ edit.dateSlug) = .error .conflict
    ∧ (approveEdit env s st authorizedUserId).2.1 = st
    ∧ (approveEdit env s st authorizedUserId).2.2 =
        [.reply ("❌ Failed to apply edit: " ++ StoreError.conflict.message)]
    ∧ (approveEdit env s st authorizedUserId).1.pendingEdits.get authorizedUserId = none
    ∧ (∀ e : StoreError, e ≠ .conflict →
        ("❌ Failed to apply edit: " ++ StoreError.conflict.message) ≠
          ("❌ Failed to apply edit: " ++ e.message)) := by
  have hupd : updateMomentFile st edit.dateSlug edit.updatedContent edit.sha
      ("Edit moment for " ++ edit.dateSlug) = .error .conflict := by
    simp [updateMomentFile, hfile, hstale]
  refine ⟨hupd, ?_, ?_, ?_, ?_⟩
  · simp [approveEdit, hpend, hupd]
  · simp [approveEdit, hpend, hupd]
  · simp [approveEdit, hpend, hupd, amap_get_del]
  · intro e he
    cases e with
    | conflict => exact absurd rfl he
    | missing => decide
    | httpFailure => decide

/-- C1 witness: the theorem applied to a pending edit whose captured token
sha-STALE differs from the current token sha-a of the stored file. -/
theorem C1_approve_edit_conflict_app :
    updateMomentFile wStore "2026-02-10" "X" "sha-STALE" ("Edit moment for " ++ "2026-02-10")
      = .error .conflict
    ∧ (approveEdit wEnv ⟨[], [], [(authorizedUserId, ⟨"2026-02-10", "X", "sha-STALE", "expl"⟩)], []⟩
        wStore authorizedUserId).2.1 = wStore
    ∧ (approveEdit wEnv ⟨[], [], [(authorizedUserId, ⟨"2026-02-10", "X", "sha-STALE", "expl"⟩)], []⟩
        wStore authorizedUserId).2.2 =
        [.reply ("❌ Failed to apply edit: " ++ StoreError.conflict.message)] := by
  have h := C1_approve_edit_conflict wEnv
    ⟨[], [], [(authorizedUserId, ⟨"2026-02-10", "X", "sha-STALE", "expl"⟩)], []⟩
    wStore ⟨"2026-02-10", "X", "sha-STALE", "expl"⟩ ⟨"I liek teh new tool", "sha-a"⟩
    (by decide) (by decide) (by decide)
  exact ⟨h.1, h.2.1, h.2.2.1⟩

/-!
Part: Claim C3: conversation-context expiry
-/

/-- C3 counterexample: the claim requires the context to be treated as
absent at any read at time at least `createdAt` plus five minutes, but at
exactly the five-minute boundary the code still reports it active. -/
theorem C3_expiry_boundary_cex :
    (300000 : Nat) ≥ 0 + 5 * 60 * 1000
    ∧ (hasActiveConversation { wEnv with now := 300000 }
        ⟨[], [], [], [(authorizedUserId, ⟨"orig", wMsg, "which one?", none, 0⟩)]⟩
        authorizedUserId).1 = true := by
  exact ⟨by decide, by decide⟩

/-- C3 (amended): a conversation context created at time T is treated as
absent by any read strictly later than T plus five minutes, and is purged by
that read, even if it was never explicitly cleared. -/
theorem C3_context_expiry (env : Env) (s : BotState) (userId : String)
    (ctx : ConversationContext)
    (hget : s.conversationContext.get userId = some ctx)
    (hexp : ctx.timestamp + 5 * 60 * 1000 < env.now) :
    hasActiveConversation env s userId =
      (false, { s with conversationContext := s.conversationContext.del userId })
    ∧ (hasActiveConversation env s userId).2.conversationContext.get userId = none := by
  have hcond : 5 * 60 * 1000 < env.now - ctx.timestamp := by omega
  constructor
  · simp [hasActiveConversation, hget, hcond]
  · simp [hasActiveConversation, hget, hcond, amap_get_del]

/-- C3 witness: the amended theorem at a context created at time 0 read at
time 300001. -/
theorem C3_context_expiry_app :
    (0 + 5 * 60 * 1000 < 300001)
    ∧ (hasActiveConversation { wEnv with now := 300001 }
        ⟨[], [], [], [(authorizedUserId, ⟨"orig", wMsg, "which one?", none, 0⟩)]⟩
        authorizedUserId).1 = false := by
  refine ⟨by decide, ?_⟩
  have h := (C3_context_expiry { wEnv with now := 300001 }
    ⟨[], [], [], [(authorizedUserId, ⟨"orig", wMsg, "which one?", none, 0⟩)]⟩
    authorizedUserId ⟨"orig", wMsg, "which one?", none, 0⟩ (by decide) (by decide)).1
  rw [h]

/-!
Part: Claim C4: accept-proposal idempotence
-/

/-- C4: with no outstanding proposal the accept-proposal handler reports
nothing pending, changes no state and performs no store write; in particular
a second accept arriving after the first one cleared the slot reports
nothing pending and commits nothing. -/
theorem C4_accept_idempotent (env : Env) (s : BotState) (st : Store) :
    (s.pendingProposals.get authorizedUserId = none →
      acceptSuggestion env s st authorizedUserId =
        (s, st, [.reply "⚠️ No pending proposal found. Send a new moment!"]))
    ∧ (∀ p, s.pendingProposals.get authorizedUserId = some p →
      acceptSuggestion env (acceptSuggestion env s st authorizedUserId).1
          (acceptSuggestion env s st authorizedUserId).2.1 authorizedUserId =
        ((acceptSuggestion env s st authorizedUserId).1,
         (acceptSuggestion env s st authorizedUserId).2.1,
         [.reply "⚠️ No pending proposal found. Send a new moment!"])) := by
  constructor
  · intro h
    simp [acceptSuggestion, h]
  · intro p hp
    have h1 : (acceptSuggestion env s st authorizedUserId).1.pendingProposals.get
        authorizedUserId = none := by
      simp [acceptSuggestion, hp, amap_get_del]
    conv_lhs => rw [acceptSuggestion]
    simp [h1]

/-- C4 witness: the theorem at the empty state and at a state holding one
proposal that the first accept clears. -/
theorem C4_accept_idempotent_app :
    acceptSuggestion wEnv wState wStore authorizedUserId =
      (wState, wStore, [.reply "⚠️ No pending proposal found. Send a new moment!"])
    ∧ (acceptSuggestion wEnv
        (acceptSuggestion wEnv ⟨[(authorizedUserId, ⟨"sugg", []⟩)], [], [], []⟩ wStore authorizedUserId).1
        (acceptSuggestion wEnv ⟨[(authorizedUserId, ⟨"sugg", []⟩)], [], [], []⟩ wStore authorizedUserId).2.1
        authorizedUserId).2.2 =
      [.reply "⚠️ No pending proposal found. Send a new moment!"] := by
  constructor
  · exact (C4_accept_idempotent wEnv wState wStore).1 (by decide)
  · rw [(C4_accept_idempotent wEnv ⟨[(authorizedUserId, ⟨"sugg", []⟩)], [], [], []⟩ wStore).2
      ⟨"sugg", []⟩ (by decide)]

/-!
Part: Claim C10: idempotence of the shortcode substitution

Support lemmas about takeWhile/drop decompositions, the shortcode matcher
takeCode, and the scanner convChars.
-/

theorem takeWhile_reconstruct {α : Type} (p : α → Bool) (l : List α) :
    l = l.takeWhile p ++ l.drop (l.takeWhile p).length := by
  induction l with
  | nil => rfl
  | cons x xs ih =>
    by_cases h : p x
    · rw [List.takeWhile_cons, if_pos h, List.length_cons, List.drop_succ_cons]
      rw [List.cons_append]
      conv_lhs => rw [ih]
    · rw [List.takeWhile_cons, if_neg h]
      simp

theorem mem_takeWhile_pred {α : Type} {p : α → Bool} {l : List α} :
    ∀ c ∈ l.takeWhile p, p c = true := by
  induction l with
  | nil => simp
  | cons x xs ih =>
    by_cases h : p x
    · intro c hc
      rw [List.takeWhile_cons, if_pos h] at hc
      rcases List.mem_cons.mp hc with rfl | hc2
      · exact h
      · exact ih c hc2
    · intro c hc
      rw [List.takeWhile_cons, if_neg h] at hc
      cases hc

theorem drop_run_head_fail {α : Type} (p : α → Bool) (l : List α) {c : α} {t : List α}
    (h : l.drop (l.takeWhile p).length = c :: t) : p c = false := by
  induction l generalizing c t with
  | nil => simp at h
  | cons x xs ih =>
    by_cases hx : p x
    · rw [List.takeWhile_cons, if_pos hx, List.length_cons, List.drop_succ_cons] at h
      exact ih h
    · rw [List.takeWhile_cons, if_neg hx, List.length_nil, List.drop_zero] at h
      injection h with h1 _
      rw [← h1]
      simpa using hx

theorem takeWhile_all_append {α : Type} {p : α → Bool} {xs : List α}
    (h : ∀ c ∈ xs, p c = true) {y : α} (hy : p y = false) (ys : List α) :
    (xs ++ y :: ys).takeWhile p = xs := by
  induction xs with
  | nil => simp [List.takeWhile_cons, hy]
  | cons x xr ih =>
    rw [List.cons_append, List.takeWhile_cons, if_pos (h x (List.mem_cons_self x xr)),
      ih (fun c hc => h c (List.mem_cons_of_mem _ hc))]

theorem takeWhile_all_self {α : Type} {p : α → Bool} {xs : List α}
    (h : ∀ c ∈ xs, p c = true) : xs.takeWhile p = xs := by
  induction xs with
  | nil => rfl
  | cons x xr ih =>
    rw [List.takeWhile_cons, if_pos (h x (List.mem_cons_self x xr)),
      ih (fun c hc => h c (List.mem_cons_of_mem _ hc))]

theorem takeCode_some_charact {l code after : List Char}
    (h : takeCode l = some (code, after)) :
    l = code ++ ':' :: after ∧ code ≠ [] ∧ ∀ c ∈ code, isCodeChar c = true := by
  unfold takeCode at h
  split at h
  · exact absurd h (by simp)
  · rename_i hrun
    split at h
    · rename_i rest hd
      simp only [Option.some.injEq, Prod.mk.injEq] at h
      obtain ⟨h1, h2⟩ := h
      subst h1
      subst h2
      refine ⟨?_, ?_, fun c hc => mem_takeWhile_pred c hc⟩
      · conv_lhs => rw [takeWhile_reconstruct isCodeChar l]
        rw [hd]
      · intro hce
        rw [hce] at hrun
        exact hrun rfl
    · exact absurd h (by simp)

theorem takeCode_code_colon {code : List Char} (hne : code ≠ [])
    (hall : ∀ c ∈ code, isCodeChar c = true) (rest : List Char) :
    takeCode (code ++ ':' :: rest) = some (code, rest) := by
  have htw : (code ++ ':' :: rest).takeWhile isCodeChar = code :=
    takeWhile_all_append hall (by decide) rest
  unfold takeCode
  rw [htw, if_neg (by simp [hne]), List.drop_left]
  rfl

theorem takeCode_head_fail {x : Char} {xs : List Char} (hx : isCodeChar x = false) :
    takeCode (x :: xs) = none := by
  unfold takeCode
  simp [List.takeWhile_cons, hx]

theorem takeCode_all_code {xs : List Char} (h : ∀ c ∈ xs, isCodeChar c = true) :
    takeCode xs = none := by
  cases xs with
  | nil => rfl
  | cons x xr =>
    unfold takeCode
    rw [takeWhile_all_self h, if_neg (by simp), List.drop_length]

theorem takeCode_append_fail {xs : List Char} (hall : ∀ c ∈ xs, isCodeChar c = true)
    {y : Char} (hy : isCodeChar y = false) (hyc : ¬(y = ':')) (ys : List Char) :
    takeCode (xs ++ y :: ys) = none := by
  cases xs with
  | nil => simpa using @takeCode_head_fail y ys hy
  | cons x xr =>
    unfold takeCode
    rw [takeWhile_all_append hall hy ys, if_neg (by simp), List.drop_left]
    split <;> first
      | rfl
      | (rename_i heq
         injection heq with h1 _
         exact absurd h1 hyc)

theorem conv_nil : convChars [] = [] := by
  rw [convChars]

theorem conv_cons_ne {c : Char} (t : List Char) (hc : ¬(c = ':')) :
    convChars (c :: t) = c :: convChars t := by
  rw [convChars]
  simp [hc]

theorem conv_colon_none {t : List Char} (h : takeCode t = none) :
    convChars (':' :: t) = ':' :: convChars t := by
  rw [convChars]
  split
  · split
    · rename_i code after heq
      rw [h] at heq
      cases heq
    · rfl
  · rename_i hne
    simp at hne

theorem conv_colon_known {t code after : List Char} {em : String}
    (h : takeCode t = some (code, after)) (hl : lookupEmoji code = some em) :
    convChars (':' :: t) = em.data ++ convChars after := by
  rw [convChars]
  split
  · split
    · rename_i code2 after2 heq
      rw [h] at heq
      simp only [Option.some.injEq, Prod.mk.injEq] at heq
      obtain ⟨h1, h2⟩ := heq
      subst h1
      subst h2
      rw [hl]
    · rename_i heq
      rw [h] at heq
      cases heq
  · rename_i hne
    simp at hne

theorem conv_colon_unknown {t code after : List Char}
    (h : takeCode t = some (code, after)) (hl : lookupEmoji code = none) :
    convChars (':' :: t) = ':' :: code ++ ':' :: convChars after := by
  rw [convChars]
  split
  · split
    · rename_i code2 after2 heq
      rw [h] at heq
      simp only [Option.some.injEq, Prod.mk.injEq] at heq
      obtain ⟨h1, h2⟩ := heq
      subst h1
      subst h2
      rw [hl]
    · rename_i heq
      rw [h] at heq
      cases heq
  · rename_i hne
    simp at hne

theorem conv_colonfree_append {xs : List Char} (h : ∀ c ∈ xs, ¬(c = ':')) (ys : List Char) :
    convChars (xs ++ ys) = xs ++ convChars ys := by
  induction xs with
  | nil => simp
  | cons x xr ih =>
    rw [List.cons_append, conv_cons_ne _ (h x (List.mem_cons_self x xr)),
      ih (fun c hc => h c (List.mem_cons_of_mem _ hc))]
    rfl

theorem conv_colonfree_self {xs : List Char} (h : ∀ c ∈ xs, ¬(c = ':')) :
    convChars xs = xs := by
  have h2 := conv_colonfree_append h []
  rw [List.append_nil, conv_nil, List.append_nil] at h2
  exact h2

set_option maxRecDepth 8192 in
theorem emojiMap_values_ok : emojiMap.all (fun p => emojiStrOk p.2) = true := by decide

theorem lookup_mem {β : Type} {l : List (String × β)} {k : String} {v : β}
    (h : l.lookup k = some v) : (k, v) ∈ l := by
  induction l with
  | nil => cases h
  | cons p rest ih =>
    obtain ⟨a, b⟩ := p
    by_cases hk : k = a
    · subst hk
      simp [List.lookup] at h
      subst h
      exact List.mem_cons_self _ _
    · have hb : (k == a) = false := by simp [hk]
      simp [List.lookup, hb] at h
      exact List.mem_cons_of_mem _ (ih h)

theorem emoji_value_ok {code : List Char} {em : String}
    (hl : lookupEmoji code = some em) :
    em.data ≠ [] ∧ ∀ c ∈ em.data, ¬(c = ':') ∧ isCodeChar c = false := by
  unfold lookupEmoji at hl
  have hmem := lookup_mem hl
  have hall := List.all_eq_true.mp emojiMap_values_ok _ hmem
  simp only [emojiStrOk, emojiCharOk, Bool.and_eq_true, Bool.not_eq_true',
    List.all_eq_true] at hall
  obtain ⟨h1, h2⟩ := hall
  constructor
  · intro he
    rw [he] at h1
    simp at h1
  · intro c hc
    obtain ⟨h4, h5⟩ := h2 c hc
    refine ⟨?_, h5⟩
    intro he
    rw [he] at h4
    simp at h4

theorem takeCode_conv_none {rest : List Char} (h : takeCode rest = none) :
    takeCode (convChars rest) = none := by
  cases rest with
  | nil => simpa [conv_nil] using h
  | cons c t =>
    by_cases hcc : isCodeChar c = true
    · have hc : ¬(c = ':') := by
        intro he
        rw [he] at hcc
        exact absurd hcc (by decide)
      unfold takeCode at h
      rw [List.takeWhile_cons, if_pos hcc, if_neg (by simp), List.length_cons,
        List.drop_succ_cons] at h
      rcases hd : t.drop (t.takeWhile isCodeChar).length with _ | ⟨e, t2⟩
      · have htfull : t.takeWhile isCodeChar = t := by
          conv_rhs => rw [takeWhile_reconstruct isCodeChar t]
          rw [hd, List.append_nil]
        have hallrest : ∀ x ∈ c :: t, isCodeChar x = true := by
          intro x hx
          rcases List.mem_cons.mp hx with rfl | hx2
          · exact hcc
          · exact mem_takeWhile_pred x (htfull ▸ hx2)
        have hfree : ∀ x ∈ c :: t, ¬(x = ':') := by
          intro x hx he
          have hxc := hallrest x hx
          rw [he] at hxc
          exact absurd hxc (by decide)
        rw [conv_colonfree_self hfree]
        exact takeCode_all_code hallrest
      · rw [hd] at h
        have hef : isCodeChar e = false := drop_run_head_fail isCodeChar t hd
        have hene : ¬(e = ':') := by
          intro he
          rw [he] at h
          simp at h
        have hsplit : t = t.takeWhile isCodeChar ++ e :: t2 := by
          conv_lhs => rw [takeWhile_reconstruct isCodeChar t]
          rw [hd]
        have hallrun : ∀ x ∈ t.takeWhile isCodeChar, isCodeChar x = true :=
          fun x hx => mem_takeWhile_pred x hx
        have hfree : ∀ x ∈ c :: t.takeWhile isCodeChar, ¬(x = ':') := by
          intro x hx he
          rcases List.mem_cons.mp hx with rfl | hx2
          · exact hc he
          · have hxc := hallrun x hx2
            rw [he] at hxc
            exact absurd hxc (by decide)
        have hconv : convChars (c :: t) =
            (c :: t.takeWhile isCodeChar) ++ e :: convChars t2 := by
          conv_lhs => rw [hsplit, ← List.cons_append]
          rw [conv_colonfree_append hfree, conv_cons_ne _ hene]
        rw [hconv]
        have hallcr : ∀ x ∈ c :: t.takeWhile isCodeChar, isCodeChar x = true := by
          intro x hx
          rcases List.mem_cons.mp hx with rfl | hx2
          · exact hcc
          · exact hallrun x hx2
        exact takeCode_append_fail hallcr hef hene (convChars t2)
    · have hccf : isCodeChar c = false := by simpa using hcc
      by_cases hc : c = ':'
      · subst hc
        rcases htc : takeCode t with _ | ⟨code, after⟩
        · rw [conv_colon_none htc]
          exact takeCode_head_fail (by decide)
        · rcases hl : lookupEmoji code with _ | em
          · rw [conv_colon_unknown htc hl]
            exact takeCode_head_fail (by decide)
          · rw [conv_colon_known htc hl]
            obtain ⟨hne, hok⟩ := emoji_value_ok hl
            rcases hem : em.data with _ | ⟨e, es⟩
            · exact absurd hem hne
            · exact takeCode_head_fail
                (hok e (by rw [hem]; exact List.mem_cons_self e es)).2
      · rw [conv_cons_ne _ hc]
        exact takeCode_head_fail hccf

theorem conv_idem (l : List Char) : convChars (convChars l) = convChars l := by
  cases l with
  | nil => rw [conv_nil, conv_nil]
  | cons c rest =>
    by_cases hc : c = ':'
    · subst hc
      rcases htc : takeCode rest with _ | ⟨code, after⟩
      · rw [conv_colon_none htc, conv_colon_none (takeCode_conv_none htc), conv_idem rest]
      · obtain ⟨hsplit, hne, hall⟩ := takeCode_some_charact htc
        rcases hl : lookupEmoji code with _ | em
        · rw [conv_colon_unknown htc hl]
          have h2 : takeCode (code ++ ':' :: convChars after) = some (code, convChars after) :=
            takeCode_code_colon hne hall (convChars after)
          rw [List.cons_append, conv_colon_unknown h2 hl, conv_idem after]
          simp
        · rw [conv_colon_known htc hl]
          obtain ⟨hemne, hok⟩ := emoji_value_ok hl
          have hfree : ∀ x ∈ em.data, ¬(x = ':') := fun x hx => (hok x hx).1
          rw [conv_colonfree_append hfree, conv_idem after]
    · rw [conv_cons_ne _ hc, conv_cons_ne _ hc, conv_idem rest]
termination_by l.length
decreasing_by
  all_goals simp only [List.length_cons]
  all_goals first
    | exact Nat.lt_succ_of_lt (takeCode_length htc)
    | exact Nat.lt_succ_self _

/-- C10: convertSlackEmoji is idempotent: substituting a second time leaves
the text unchanged, so the publish-original handler, which substitutes the
already-substituted text carried in the button payload, commits exactly that
text. -/
theorem C10_convertSlackEmoji_idempotent (s : String) :
    convertSlackEmoji (convertSlackEmoji s) = convertSlackEmoji s := by
  unfold convertSlackEmoji
  have hdata : (String.mk (convChars s.data)).data = convChars s.data := rfl
  rw [hdata, conv_idem]

/-!
Part: Claim C9: per-attachment failure isolation in processMessageImages
-/

theorem pmiGo_filterMap (env : Env) (dateSlug : String) (l : List SlackFile) :
    ∀ i, pmiGo env dateSlug i l = (List.enumFrom i l).filterMap fun p =>
      (env.download p.1).map fun b =>
        ⟨imageFilename env dateSlug p.1 p.2, b, imageEmbed (imageFilename env dateSlug p.1 p.2)⟩ := by
  induction l with
  | nil => intro i; rfl
  | cons f rest ih =>
    intro i
    cases hd : env.download i with
    | some b => simp [pmiGo, hd, List.enumFrom, List.filterMap_cons, ih]
    | none => simp [pmiGo, hd, List.enumFrom, List.filterMap_cons, ih]

theorem processMessageImages_filterMap (env : Env) (msg : SlackMessage) (dateSlug : String) :
    processMessageImages env msg dateSlug =
      ((extractImageFiles msg).enum).filterMap fun p =>
        (env.download p.1).map fun b =>
          ⟨imageFilename env dateSlug p.1 p.2, b, imageEmbed (imageFilename env dateSlug p.1 p.2)⟩ := by
  unfold processMessageImages
  rcases hl : extractImageFiles msg with _ | ⟨f, rest⟩
  · simp
  · simp only [List.isEmpty_cons, if_false, Bool.false_eq_true]
    rw [pmiGo_filterMap]
    rfl

/-- C9: the download loop never fails as a whole; its result is exactly the
attachments whose transfer succeeded, in their original order and with their
original indices, and a failed transfer removes only its own attachment. -/
theorem C9_image_failure_isolation (env : Env) (msg : SlackMessage) (dateSlug : String) :
    processMessageImages env msg dateSlug =
      ((extractImageFiles msg).enum).filterMap fun p =>
        (env.download p.1).map fun b =>
          ⟨imageFilename env dateSlug p.1 p.2, b, imageEmbed (imageFilename env dateSlug p.1 p.2)⟩ :=
  processMessageImages_filterMap env msg dateSlug

/-!
Part: Claim C2: unauthorized senders
-/

theorem string_data_empty_iff (s : String) : s.data.isEmpty = true ↔ s = "" := by
  cases s with
  | mk data => simp [List.isEmpty_iff, String.ext_iff]

/-- C2 counterexample: an empty message (no text, no attachments) from a
non-authorized sender is dropped by the emptiness gate before the
authorization check, so no rejection reply is sent, contradicting the claim
that every message from a non-authorized sender draws exactly the one fixed
rejection reply. -/
theorem C2_unauthorized_cex :
    appMessage wEnv wState wStore ⟨none, none, [], some "U-EVE"⟩ = (wState, wStore, [])
    ∧ ([] : List Output) ≠ [Output.reply unauthorizedReply] := by
  constructor
  · rfl
  · decide

/-- C2 (amended): for every inbound message that passes the subtype filter
and carries text or image attachments, if the sender is not the authorized
principal the router sends exactly the one fixed rejection reply and leaves
every ephemeral slot and the store unchanged. -/
theorem C2_unauthorized_frame (env : Env) (s : BotState) (st : Store) (msg : SlackMessage)
    (hsub : msg.subtype = none ∨ msg.subtype = some "file_share")
    (hne : (∃ t, msg.text = some t ∧ t ≠ "") ∨ extractImageFiles msg ≠ [])
    (hauth : msg.user ≠ some authorizedUserId) :
    appMessage env s st msg = (s, st, [.reply unauthorizedReply]) := by
  have hgate : (msg.subtype.isNone || msg.subtype == some "file_share") = true := by
    rcases hsub with h | h <;> simp [h]
  have hne2 : ((!(match msg.text with | some t => !t.data.isEmpty | none => false))
      && !(decide (0 < (extractImageFiles msg).length))) = false := by
    rcases hne with ⟨t, ht, htne⟩ | himg
    · rw [ht]
      have hdata : t.data.isEmpty = false := by
        rcases h : t.data.isEmpty with _ | _
        · rfl
        · exact absurd ((string_data_empty_iff t).mp h) htne
      simp [hdata]
    · have hlen : 0 < (extractImageFiles msg).length := by
        rcases h : extractImageFiles msg with _ | ⟨f, r⟩
        · exact absurd h himg
        · simp
      simp [hlen]
  rcases huser : msg.user with _ | uid
  · simp [appMessage, hgate, hne2, huser]
  · have huid : ¬(uid = authorizedUserId) := by
      intro he
      exact hauth (by rw [huser, he])
    simp [appMessage, hgate, hne2, huser, huid]

/-- C2 witness: the amended theorem at a text message from U-EVE. -/
theorem C2_unauthorized_frame_app :
    appMessage wEnv wState wStore ⟨none, some "hello", [], some "U-EVE"⟩ =
      (wState, wStore, [.reply unauthorizedReply]) := by
  exact C2_unauthorized_frame wEnv wState wStore ⟨none, some "hello", [], some "U-EVE"⟩
    (Or.inl rfl) (Or.inl ⟨"hello", rfl, by decide⟩) (by decide)

/-!
Part: Environment congruence

The publish flow reads only part of the oracle record; these lemmas state
that two environments agreeing on those fields drive it identically.
-/

theorem imageFilename_congr {env₁ env₂ : Env} (hts : env₁.timestampStr = env₂.timestampStr)
    (slug : String) (i : Nat) (f : SlackFile) :
    imageFilename env₁ slug i f = imageFilename env₂ slug i f := by
  simp [imageFilename, hts]

theorem pmiGo_congr {env₁ env₂ : Env} (hdl : env₁.download = env₂.download)
    (hts : env₁.timestampStr = env₂.timestampStr) (slug : String) :
    ∀ (i : Nat) (l : List SlackFile), pmiGo env₁ slug i l = pmiGo env₂ slug i l := by
  intro i l
  induction l generalizing i with
  | nil => rfl
  | cons f rest ih =>
    cases hd : env₂.download i with
    | some b => simp [pmiGo, hdl, hd, imageFilename_congr hts, ih]
    | none => simp [pmiGo, hdl, hd, ih]

theorem processMessageImages_congr {env₁ env₂ : Env} (hdl : env₁.download = env₂.download)
    (hts : env₁.timestampStr = env₂.timestampStr) (msg : SlackMessage) (slug : String) :
    processMessageImages env₁ msg slug = processMessageImages env₂ msg slug := by
  unfold processMessageImages
  simp only [pmiGo_congr hdl hts]

theorem uploadImage_congr {env₁ env₂ : Env} (huo : env₁.uploadOk = env₂.uploadOk)
    (st : Store) (b f : String) : uploadImage env₁ st b f = uploadImage env₂ st b f := by
  simp [uploadImage, huo]

theorem pauGo_congr {env₁ env₂ : Env} (huo : env₁.uploadOk = env₂.uploadOk) :
    ∀ (st : Store) (l : List ProcessedImage), pauGo env₁ st l = pauGo env₂ st l := by
  intro st l
  induction l generalizing st with
  | nil => rfl
  | cons img rest ih =>
    rw [pauGo, pauGo, uploadImage_congr huo]
    cases uploadImage env₂ st img.buffer img.filename with
    | ok p => simp [ih]
    | error e => simp [ih]

theorem processAndUploadImages_congr {env₁ env₂ : Env}
    (hds : env₁.daySlug = env₂.daySlug) (hdl : env₁.download = env₂.download)
    (hts : env₁.timestampStr = env₂.timestampStr) (huo : env₁.uploadOk = env₂.uploadOk)
    (st : Store) (msg : SlackMessage) :
    processAndUploadImages env₁ st msg = processAndUploadImages env₂ st msg := by
  unfold processAndUploadImages todaySlug
  rw [hds, processMessageImages_congr hdl hts, pauGo_congr huo]

theorem addMoment_congr {env₁ env₂ : Env} (hds : env₁.daySlug = env₂.daySlug)
    (st : Store) (text : String) (slugOpt : Option String) :
    addMoment env₁ st text slugOpt = addMoment env₂ st text slugOpt := by
  simp [addMoment, todaySlug, hds]

theorem publishAndNotify_congr {env₁ env₂ : Env} (hds : env₁.daySlug = env₂.daySlug)
    (st : Store) (text : String) :
    publishAndNotify env₁ st text = publishAndNotify env₂ st text := by
  unfold publishAndNotify
  rw [addMoment_congr hds]

theorem processAsMoment_congr {env₁ env₂ : Env}
    (hds : env₁.daySlug = env₂.daySlug) (hdl : env₁.download = env₂.download)
    (hts : env₁.timestampStr = env₂.timestampStr) (huo : env₁.uploadOk = env₂.uploadOk)
    (hrev : env₁.reviewRes = env₂.reviewRes)
    (s : BotState) (st : Store) (text : String) (msg : SlackMessage) (hasImages : Bool) :
    processAsMoment env₁ s st text msg hasImages =
      processAsMoment env₂ s st text msg hasImages := by
  unfold processAsMoment
  simp only [processAndUploadImages_congr hds hdl hts huo, hrev,
    publishAndNotify_congr hds]

/-!
Part: Claim C5: classification failure defaults to the publish flow
-/

/-- C5: on a text message, when the intent-classification call fails the
orchestrator neither propagates the error nor aborts: the run is identical
to a run in which classification returned the content label, all other
oracle outcomes being equal. -/
theorem C5_classify_failure_defaults (env₁ env₂ : Env) (s : BotState) (st : Store)
    (text : String) (msg : SlackMessage) (e : String) (c : ClassifyResult)
    (hnow : env₁.now = env₂.now)
    (hts : env₁.timestampStr = env₂.timestampStr)
    (hds : env₁.daySlug = env₂.daySlug)
    (hdl : env₁.download = env₂.download)
    (huo : env₁.uploadOk = env₂.uploadOk)
    (hrev : env₁.reviewRes = env₂.reviewRes)
    (hcr : env₁.craftRes = env₂.craftRes)
    (hir : env₁.instrRes = env₂.instrRes)
    (hc1 : env₁.classifyRes = .error e)
    (hc2 : env₂.classifyRes = .ok c)
    (hcm : c.intent = .moment)
    (htext : text ≠ "") :
    handleNewMoment env₁ s st text msg = handleNewMoment env₂ s st text msg := by
  have hdata : text.data.isEmpty = false := by
    rcases h : text.data.isEmpty with _ | _
    · rfl
    · exact absurd ((string_data_empty_iff text).mp h) htext
  unfold handleNewMoment
  rw [hc1, hc2]
  simp only [hdata, Bool.not_false, Bool.true_and, Bool.not_true, Bool.false_and,
    Bool.false_eq_true, if_false, hcm]
  rw [processAsMoment_congr hds hdl hts huo hrev]

/-- C5 witness: with classification failing, the run equals the run with a
content classification on a concrete text message. -/
theorem C5_classify_failure_defaults_app :
    handleNewMoment { wEnv with classifyRes := .error "gateway down" } wState wStore "hello" wMsg
      = handleNewMoment wEnv wState wStore "hello" wMsg := by
  exact C5_classify_failure_defaults { wEnv with classifyRes := .error "gateway down" } wEnv
    wState wStore "hello" wMsg "gateway down" ⟨.moment, "", ""⟩
    rfl rfl rfl rfl rfl rfl rfl rfl rfl rfl rfl (by decide)

/-!
Part: Upload-loop facts shared by C6 and C8
-/

theorem pauGo_moments (env : Env) : ∀ (st : Store) (l : List ProcessedImage),
    ((pauGo env st l).1).moments = st.moments := by
  intro st l
  induction l generalizing st with
  | nil => rfl
  | cons img rest ih =>
    rw [pauGo]
    cases hU : uploadImage env st img.buffer img.filename with
    | ok p =>
      obtain ⟨st1, url⟩ := p
      have hm : st1.moments = st.moments := by
        unfold uploadImage at hU
        split at hU
        · simp only [Except.ok.injEq, Prod.mk.injEq] at hU
          rw [← hU.1]
        · cases hU
      rcases hp : pauGo env st1 rest with ⟨st2, outs, embeds⟩
      have h2 := ih st1
      rw [hp] at h2
      simpa [hp] using h2.trans hm
    | error e => exact ih st

theorem pauGo_outs_filter (env : Env) (p : Output → Bool)
    (hp : ∀ f, p (Output.imageWrite f) = false) : ∀ (st : Store) (l : List ProcessedImage),
    ((pauGo env st l).2.1).filter p = [] := by
  intro st l
  induction l generalizing st with
  | nil => rfl
  | cons img rest ih =>
    rw [pauGo]
    cases hU : uploadImage env st img.buffer img.filename with
    | ok q =>
      obtain ⟨st1, url⟩ := q
      rcases hpg : pauGo env st1 rest with ⟨st2, outs, embeds⟩
      have h2 := ih st1
      rw [hpg] at h2
      simp [hpg, List.filter_cons, hp, h2]
    | error e => exact ih st

theorem pauGo_all_ok (env : Env) (huo : ∀ f, env.uploadOk f = true) :
    ∀ (st : Store) (l : List ProcessedImage),
    (pauGo env st l).2.1 = l.map (fun img => Output.imageWrite img.filename)
    ∧ (pauGo env st l).2.2 = l.map ProcessedImage.markdownEmbed := by
  intro st l
  induction l generalizing st with
  | nil => exact ⟨rfl, rfl⟩
  | cons img rest ih =>
    rw [pauGo]
    cases hU : uploadImage env st img.buffer img.filename with
    | ok q =>
      obtain ⟨st1, url⟩ := q
      rcases hpg : pauGo env st1 rest with ⟨st2, outs, embeds⟩
      have h2 := ih st1
      rw [hpg] at h2
      simp only [hpg, List.map_cons]
      exact ⟨congrArg _ h2.1, congrArg _ h2.2⟩
    | error e =>
      exact absurd hU (by simp [uploadImage, huo img.filename])

theorem filterMap_download_all_some (env : Env) (slug : String)
    (hdl : ∀ i, (env.download i).isSome) : ∀ (l : List (Nat × SlackFile)),
    (l.filterMap fun p => (env.download p.1).map fun b =>
        (⟨imageFilename env slug p.1 p.2, b, imageEmbed (imageFilename env slug p.1 p.2)⟩ :
          ProcessedImage)).map ProcessedImage.markdownEmbed
      = l.map (fun p => imageEmbed (imageFilename env slug p.1 p.2)) := by
  intro l
  induction l with
  | nil => rfl
  | cons p rest ih =>
    rcases hd : env.download p.1 with _ | b
    · have := hdl p.1
      rw [hd] at this
      cases this
    · simp [List.filterMap_cons, hd, ih]

theorem addMoment_outs (env : Env) (st : Store) (text : String) (slugOpt : Option String) :
    (addMoment env st text slugOpt).2.2 =
      [.storeAdd (slugOpt.getD (todaySlug env)) text] := by
  unfold addMoment
  cases h : getFile st (slugOpt.getD (todaySlug env)) <;> simp [h]

/-!
Part: Claim C6: image-only messages publish immediately
-/

/-- C6: an image-only message from the principal is published without any
language-model call; when every transfer succeeds, the single moment write
targets the key of the current day and its entry is the embed references of
all the attachments joined by a blank line. -/
theorem C6_image_only_publish (env : Env) (s : BotState) (st : Store) (msg : SlackMessage)
    (hext : extractImageFiles msg ≠ [])
    (hdl : ∀ i, (env.download i).isSome)
    (huo : ∀ f, env.uploadOk f = true) :
    ((handleNewMoment env s st "" msg).2.2).filter Output.isLmCall = []
    ∧ ((handleNewMoment env s st "" msg).2.2).filter Output.isMomentWrite =
        [Output.storeAdd (todaySlug env)
          (joinSep "\n\n" ((extractImageFiles msg).enum.map
            fun p => imageEmbed (imageFilename env (todaySlug env) p.1 p.2)))] := by
  have hlen : 0 < (extractImageFiles msg).length := by
    rcases h : extractImageFiles msg with _ | ⟨f, r⟩
    · exact absurd h hext
    · simp
  -- the upload phase produces the embeds of all attachments, in order
  rcases hP : processAndUploadImages env st msg with ⟨st1, iouts, embeds⟩
  have hPe : pauGo env st (processMessageImages env msg (todaySlug env)) = (st1, iouts, embeds) := hP
  have hall := pauGo_all_ok env huo st (processMessageImages env msg (todaySlug env))
  rw [hPe] at hall
  have hembeds : embeds = (extractImageFiles msg).enum.map
      (fun p => imageEmbed (imageFilename env (todaySlug env) p.1 p.2)) := by
    have he : embeds = (processMessageImages env msg (todaySlug env)).map
        ProcessedImage.markdownEmbed := hall.2
    rw [he, processMessageImages_filterMap env msg (todaySlug env)]
    exact filterMap_download_all_some env (todaySlug env) hdl _
  have hiouts1 : iouts.filter Output.isLmCall = [] := by
    have h := pauGo_outs_filter env Output.isLmCall (fun f => rfl) st
      (processMessageImages env msg (todaySlug env))
    rw [hPe] at h
    exact h
  have hiouts2 : iouts.filter Output.isMomentWrite = [] := by
    have h := pauGo_outs_filter env Output.isMomentWrite (fun f => rfl) st
      (processMessageImages env msg (todaySlug env))
    rw [hPe] at h
    exact h
  have hne : embeds.isEmpty = false := by
    rw [hembeds]
    rcases h : extractImageFiles msg with _ | ⟨f, r⟩
    · exact absurd h hext
    · simp [List.enum]
  -- reduce the image-only branch of handleNewMoment
  rcases hA : addMoment env st1 (joinSep "\n\n" embeds) none with ⟨st2, res, wouts⟩
  have hw : wouts = [.storeAdd (todaySlug env) (joinSep "\n\n" embeds)] := by
    have h := addMoment_outs env st1 (joinSep "\n\n" embeds) none
    rw [hA] at h
    exact h
  have hT : (("" : String).data).isEmpty = true := rfl
  have hI : decide (0 < (extractImageFiles msg).length) = true := by simp [hlen]
  unfold handleNewMoment
  simp only [hT, hI, Bool.not_true, Bool.not_false, Bool.true_and, if_true]
  rw [hP]
  simp only [hne, Bool.false_eq_true, if_false]
  unfold publishAndNotify
  rw [hA]
  refine ⟨?_, ?_⟩ <;>
    simp [List.filter_cons, List.filter_append, hiouts1, hiouts2, hw, hembeds,
      Output.isLmCall, Output.isMomentWrite]

/-- C6 witness: the theorem at a two-photo image-only message with all
transfers succeeding. -/
theorem C6_image_only_publish_app :
    ((handleNewMoment wEnv wState wStore "" wImgMsg).2.2).filter Output.isLmCall = []
    ∧ ((handleNewMoment wEnv wState wStore "" wImgMsg).2.2).filter Output.isMomentWrite =
        [Output.storeAdd (todaySlug wEnv)
          (joinSep "\n\n" ((extractImageFiles wImgMsg).enum.map
            fun p => imageEmbed (imageFilename wEnv (todaySlug wEnv) p.1 p.2)))] := by
  exact C6_image_only_publish wEnv wState wStore wImgMsg (by decide)
    (fun i => rfl) (fun f => rfl)

/-!
Part: Claim C8: dangling day reference in the instruction flow
-/

theorem getRecentMoments_moments {st₁ st₂ : Store} (h : st₁.moments = st₂.moments)
    (env : Env) (n : Nat) : getRecentMoments env st₁ n = getRecentMoments env st₂ n := by
  simp [getRecentMoments, getFile, h]

/-- C8: when the edit-execution gateway answers with action edit naming a
day that is not among the recent files fetched in the same run, the
instruction flow stores no PendingEdit (the state is unchanged), writes no
moment file, and reports the fatal flow error to the principal. -/
theorem C8_dangling_reference (env : Env) (s : BotState) (st : Store) (text : String)
    (msg : SlackMessage) (r : InstructionResult)
    (hres : env.instrRes = .ok r)
    (hact : r.action = .edit)
    (hrecent : getRecentMoments env st 5 ≠ [])
    (hdangle : ∀ m ∈ getRecentMoments env st 5, ¬(m.dateSlug = r.dateSlug))
    (himg : extractImageFiles msg = [] ∨ (processAndUploadImages env st msg).2.2 ≠ []) :
    (handleInstruction env s st text msg).1 = s
    ∧ ((handleInstruction env s st text msg).2.1).moments = st.moments
    ∧ ((handleInstruction env s st text msg).2.2).filter Output.isMomentWrite = []
    ∧ Output.reply ("⚠️ Couldn\x27t find the moment file for " ++ r.dateSlug
        ++ ". Something went wrong.") ∈ (handleInstruction env s st text msg).2.2 := by
  have hfind : (getRecentMoments env st 5).find? (fun m => m.dateSlug == r.dateSlug) = none := by
    rw [List.find?_eq_none]
    intro x hx
    simp [hdangle x hx]
  have hrecE : (getRecentMoments env st 5).isEmpty = false := by
    rcases h : getRecentMoments env st 5 with _ | ⟨m, rest⟩
    · exact absurd h hrecent
    · rfl
  by_cases hImg : extractImageFiles msg = []
  · have hIlen : decide (0 < (extractImageFiles msg).length) = false := by simp [hImg]
    unfold handleInstruction
    simp only [hIlen, Bool.false_eq_true, if_false, List.isEmpty_nil, Bool.false_and,
      hrecE, hres, hact, hfind]
    simp [List.filter_append, List.filter_cons, Output.isMomentWrite]
  · have hImgT : decide (0 < (extractImageFiles msg).length) = true := by
      rcases h : extractImageFiles msg with _ | ⟨f, rr⟩
      · exact absurd h hImg
      · simp
    rcases hP : processAndUploadImages env st msg with ⟨st1, iouts, embeds⟩
    have hPe : pauGo env st (processMessageImages env msg (todaySlug env)) =
        (st1, iouts, embeds) := hP
    have hemne : embeds ≠ [] := by
      rcases himg with h | h
      · exact absurd h hImg
      · rw [hP] at h
        exact h
    have hemE : embeds.isEmpty = false := by
      rcases h : embeds with _ | ⟨e, rest⟩
      · exact absurd h hemne
      · rfl
    have hstm : st1.moments = st.moments := by
      have h := pauGo_moments env st (processMessageImages env msg (todaySlug env))
      rw [hPe] at h
      exact h
    have hrec1 : getRecentMoments env st1 5 = getRecentMoments env st 5 :=
      getRecentMoments_moments hstm env 5
    have hiouts : iouts.filter Output.isMomentWrite = [] := by
      have h := pauGo_outs_filter env Output.isMomentWrite (fun f => rfl) st
        (processMessageImages env msg (todaySlug env))
      rw [hPe] at h
      exact h
    unfold handleInstruction
    simp only [hImgT, if_true]
    rw [hP]
    simp only [hemE, Bool.and_false, Bool.false_eq_true, if_false, hrec1, hrecE,
      hres, hact, hfind]
    simp [List.filter_append, List.filter_cons, Output.isMomentWrite, hiouts, hstm]

/-- C8 witness: the gateway names day 2026-02-01, which is not among the
fetched recent files. -/
theorem C8_dangling_reference_app :
    (handleInstruction { wEnv with instrRes := .ok ⟨.edit, "2026-02-01", "new", "why", "", "", ""⟩ }
      wState wStore "fix it" wMsg).1 = wState
    ∧ ((handleInstruction { wEnv with instrRes := .ok ⟨.edit, "2026-02-01", "new", "why", "", "", ""⟩ }
      wState wStore "fix it" wMsg).2.2).filter Output.isMomentWrite = [] := by
  have h := C8_dangling_reference
    { wEnv with instrRes := .ok ⟨.edit, "2026-02-01", "new", "why", "", "", ""⟩ }
    wState wStore "fix it" wMsg ⟨.edit, "2026-02-01", "new", "why", "", "", ""⟩
    rfl rfl (by decide) (by decide) (Or.inl (by decide))
  exact ⟨h.1, h.2.2.1⟩

end Moments
